import Mathlib

/-!
# Fawkes BlackBoard and SkillerInterface: a verification development

Part I embeds the BlackBoard registry, the interface accessor contract and the
per-interface message queue.  The implementation of these (the interface
manager and the `Interface` / `Message` base classes) is not among the source
files at hand, which only hold its API documentation (`blackboard.cpp`) and its
callers, so Part I is modelled from the specification.

Part II embeds `src/interfaces/SkillerInterface.cpp`.
-/

namespace fawkes

/-! ## Part I: BlackBoard registry, accessors, message queue -/

/-- Error taxonomy of the BlackBoard (specification, section 7). -/
inductive BBError where
  | OutOfMemory
  | WriterAlreadyActive
  | PermissionDenied
  | TypeMismatch
  | InvalidMessageType
  | AlivenessLost
deriving DecidableEq, Repr

/-- Identity of an interface block: the pair (type name, instance identifier). -/
structure InterfaceId where
  type_name : String
  instance_id : String
deriving DecidableEq, Repr

/-- Modelled from the spec: the Interface Block of section 3 (the shared-memory
block itself is managed by the absent interface manager).  It carries the
payload, the data revision counter, the writer-present flag, the reader count
and the embedded message queue.  `π` is the payload type of the interface
schema, `μ` the type of its messages. -/
structure InterfaceBlock (π μ : Type) where
  payload : π
  revision : Nat
  writer_present : Bool
  reader_count : Nat
  msgq : List μ

/-- Modelled from the spec: the part of an accessor that the registry hands out
and that never changes afterwards: its instance serial, the block it is bound
to and its open mode (`writer = true` for a writer accessor). -/
structure AccessorRecord where
  serial : Nat
  id : InterfaceId
  writer : Bool
deriving DecidableEq, Repr

/-- Modelled from the spec: the Accessor of section 3 (class `Interface`, absent
from the sources): a local handle bound to one block, with a private copy of the
payload, the open mode and the last-seen revision. -/
structure Accessor (π : Type) where
  serial : Nat
  id : InterfaceId
  writer : Bool
  data : π
  last_revision : Nat

/-- The immutable part of an accessor, as recorded by the registry. -/
def Accessor.record {π : Type} (a : Accessor π) : AccessorRecord :=
  { serial := a.serial, id := a.id, writer := a.writer }

/-- Setting the local payload copy of an accessor (the `set_*` methods of an
interface only touch the private copy). -/
def Accessor.set_data {π : Type} (a : Accessor π) (x : π) : Accessor π :=
  { a with data := x }

/-- Modelled from the spec: the registry/directory of section 4.2 together with
the arena of section 4.1 (class `BlackBoardInterfaceManager`, absent from the
sources).  The arena is abstracted to the number of blocks it can still hold;
`blocks` is the directory; `open_accessors` lists the accessors handed out and
not yet closed; `next_serial` is the next accessor instance serial. -/
structure Registry (π μ : Type) where
  free_slots : Nat
  blocks : InterfaceId → Option (InterfaceBlock π μ)
  open_accessors : List AccessorRecord
  next_serial : Nat

/-- An empty registry over an arena with room for `capacity` blocks. -/
def Registry.init (π μ : Type) (capacity : Nat) : Registry π μ :=
  { free_slots := capacity, blocks := fun _ => none, open_accessors := [], next_serial := 1 }

/-- Replace the directory entry of `k`. -/
def Registry.set_block {π μ : Type} (reg : Registry π μ) (k : InterfaceId)
    (b : Option (InterfaceBlock π μ)) : Registry π μ :=
  { reg with blocks := fun j => if j = k then b else reg.blocks j }

/-- Modelled from the spec: the allocation rule shared by both open calls
("if block absent, allocate it (zero-initialized)"), failing with `OutOfMemory`
when the arena is exhausted. -/
def locate_or_allocate {π μ : Type} [Zero π] (reg : Registry π μ) (k : InterfaceId) :
    Registry π μ × Except BBError (InterfaceBlock π μ) :=
  match reg.blocks k with
  | some b => (reg, .ok b)
  | none =>
    if reg.free_slots = 0 then (reg, .error .OutOfMemory)
    else
      let b : InterfaceBlock π μ :=
        { payload := 0, revision := 0, writer_present := false, reader_count := 0, msgq := [] }
      ({ (reg.set_block k (some b)) with free_slots := reg.free_slots - 1 }, .ok b)

/-- Hand out a fresh accessor on block `b` of `k`, which replaces the directory entry. -/
def hand_out {π μ : Type} [Zero π] (reg : Registry π μ) (k : InterfaceId) (w : Bool)
    (b : InterfaceBlock π μ) : Registry π μ × Except BBError (Accessor π) :=
  let a : Accessor π :=
    { serial := reg.next_serial, id := k, writer := w, data := 0, last_revision := b.revision }
  ({ (reg.set_block k (some b)) with
      open_accessors := reg.open_accessors ++ [a.record],
      next_serial := reg.next_serial + 1 }, .ok a)

/-- Modelled from the spec: `open_for_reading(type, id)`: "if block absent,
allocate it (zero-initialized); always succeeds unless memory is exhausted;
increments reader count". -/
def open_for_reading {π μ : Type} [Zero π] (reg : Registry π μ) (type id : String) :
    Registry π μ × Except BBError (Accessor π) :=
  let k : InterfaceId := ⟨type, id⟩
  match locate_or_allocate reg k with
  | (reg1, .error e) => (reg1, .error e)
  | (reg1, .ok b) => hand_out reg1 k false { b with reader_count := b.reader_count + 1 }

/-- Modelled from the spec: `open_for_writing(type, id)`: "same allocation rule,
but fails with `WriterAlreadyActive` if the block's writer-present flag is
already set; otherwise sets it". -/
def open_for_writing {π μ : Type} [Zero π] (reg : Registry π μ) (type id : String) :
    Registry π μ × Except BBError (Accessor π) :=
  let k : InterfaceId := ⟨type, id⟩
  match locate_or_allocate reg k with
  | (reg1, .error e) => (reg1, .error e)
  | (reg1, .ok b) =>
    if b.writer_present then (reg1, .error .WriterAlreadyActive)
    else hand_out reg1 k true { b with writer_present := true }

/-- Modelled from the spec: `close(Accessor)`: "decrements the relevant
count(s); if this was the last writer, clears writer-present; if reader+writer
counts both reach zero, reclaims the block".  The accessor is looked up by its
instance serial among the outstanding ones; the specification requires every
accessor to be closed exactly once, so a close of an accessor that is not
outstanding is outside the contract and leaves the registry as it is. -/
def close {π μ : Type} (reg : Registry π μ) (a : Accessor π) : Registry π μ :=
  match reg.open_accessors.find? (fun h => h.serial == a.serial) with
  | none => reg
  | some h =>
    match reg.blocks h.id with
    | none => { reg with open_accessors := reg.open_accessors.erase h }
    | some b =>
      let b1 : InterfaceBlock π μ :=
        if h.writer then { b with writer_present := false }
        else { b with reader_count := b.reader_count - 1 }
      if b1.reader_count = 0 ∧ b1.writer_present = false then
        { (reg.set_block h.id none) with
            free_slots := reg.free_slots + 1,
            open_accessors := reg.open_accessors.erase h }
      else
        { (reg.set_block h.id (some b1)) with
            open_accessors := reg.open_accessors.erase h }

/-- The calls a component can make on the registry. -/
inductive Call (π : Type) where
  | open_for_reading (type id : String)
  | open_for_writing (type id : String)
  | close (a : Accessor π)

/-- One registry call; a failed open leaves whatever state the call returns. -/
def Registry.step {π μ : Type} [Zero π] (reg : Registry π μ) : Call π → Registry π μ
  | .open_for_reading t i => (open_for_reading reg t i).1
  | .open_for_writing t i => (open_for_writing reg t i).1
  | .close a => close reg a

/-- A sequence of registry calls, executed in order. -/
def Registry.run {π μ : Type} [Zero π] (reg : Registry π μ) (calls : List (Call π)) :
    Registry π μ :=
  calls.foldl Registry.step reg

/-- The writer accessors of interface `k` that are outstanding in `reg`. -/
def Registry.writers {π μ : Type} (reg : Registry π μ) (k : InterfaceId) : List AccessorRecord :=
  reg.open_accessors.filter (fun h => decide (h.id = k) && h.writer)

/-- The reader accessors of interface `k` that are outstanding in `reg`. -/
def Registry.readers {π μ : Type} (reg : Registry π μ) (k : InterfaceId) : List AccessorRecord :=
  reg.open_accessors.filter (fun h => decide (h.id = k) && !h.writer)

/-- Bookkeeping consistency of a registry: an interface without a block has no
outstanding accessor, and for an interface with a block the writer-present flag
and the reader count agree with the outstanding accessors. -/
def Registry.Consistent {π μ : Type} (reg : Registry π μ) : Prop :=
  ∀ k : InterfaceId,
    match reg.blocks k with
    | none => ∀ h ∈ reg.open_accessors, h.id ≠ k
    | some b =>
      (reg.writers k).length = (if b.writer_present then 1 else 0) ∧
      (reg.readers k).length = b.reader_count

/-- Modelled from the spec: `read()`: "copies the current shared payload into
the local copy; valid for any accessor, reader or writer".  An accessor whose
block is gone (it was closed before) is outside the contract; the model reports
`AlivenessLost` for it. -/
def read {π μ : Type} (reg : Registry π μ) (a : Accessor π) : Except BBError (Accessor π) :=
  match reg.blocks a.id with
  | none => .error .AlivenessLost
  | some b => .ok { a with data := b.payload, last_revision := b.revision }

/-- Modelled from the spec: `write()`: "valid only for a writer accessor; copies
local payload into shared memory, increments the revision counter"; on a reader
accessor it "fails with `PermissionDenied`". -/
def write {π μ : Type} (reg : Registry π μ) (a : Accessor π) :
    Registry π μ × Except BBError (Accessor π) :=
  if a.writer = false then (reg, .error .PermissionDenied)
  else
    match reg.blocks a.id with
    | none => (reg, .error .AlivenessLost)
    | some b =>
      (reg.set_block a.id (some { b with payload := a.data, revision := b.revision + 1 }),
       .ok { a with last_revision := b.revision + 1 })

/-- Modelled from the spec: `msgq_enqueue(Message)`: "valid for any accessor;
validates the message against the interface's type-specific accept predicate
(fails with `InvalidMessageType` if rejected); appends to the shared queue".
`accept` is the accept predicate of each interface type.  The enqueue timestamp
is real time and is not part of the model. -/
def msgq_enqueue {π μ : Type} (accept : String → μ → Bool) (reg : Registry π μ)
    (a : Accessor π) (m : μ) : Registry π μ × Except BBError Unit :=
  if accept a.id.type_name m = false then (reg, .error .InvalidMessageType)
  else
    match reg.blocks a.id with
    | none => (reg, .error .AlivenessLost)
    | some b => (reg.set_block a.id (some { b with msgq := b.msgq ++ [m] }), .ok ())

/-- Modelled from the spec: `msgq_empty`, a writer-side drain operation
("pop/drain is restricted to the writer accessor"). -/
def msgq_empty {π μ : Type} (reg : Registry π μ) (a : Accessor π) : Except BBError Bool :=
  if a.writer = false then .error .PermissionDenied
  else
    match reg.blocks a.id with
    | none => .error .AlivenessLost
    | some b => .ok b.msgq.isEmpty

/-- Modelled from the spec: `msgq_first`, the oldest message of the queue (none
on an empty queue); writer-side. -/
def msgq_first {π μ : Type} (reg : Registry π μ) (a : Accessor π) :
    Except BBError (Option μ) :=
  if a.writer = false then .error .PermissionDenied
  else
    match reg.blocks a.id with
    | none => .error .AlivenessLost
    | some b => .ok b.msgq.head?

/-- Modelled from the spec: `msgq_pop`: "popping is destructive and is the only
way entries leave the queue"; it removes the oldest message; writer-side. -/
def msgq_pop {π μ : Type} (reg : Registry π μ) (a : Accessor π) :
    Registry π μ × Except BBError Unit :=
  if a.writer = false then (reg, .error .PermissionDenied)
  else
    match reg.blocks a.id with
    | none => (reg, .error .AlivenessLost)
    | some b => (reg.set_block a.id (some { b with msgq := b.msgq.tail }), .ok ())

/-- A single thread enqueueing the messages `ms` one after the other through the
accessor `a`; it stops at the first enqueue that fails. -/
def enqueue_all {π μ : Type} (accept : String → μ → Bool) (reg : Registry π μ)
    (a : Accessor π) : List μ → Registry π μ × Except BBError Unit
  | [] => (reg, .ok ())
  | m :: ms =>
    match msgq_enqueue accept reg a m with
    | (reg1, .ok _) => enqueue_all accept reg1 a ms
    | (reg1, .error e) => (reg1, .error e)

/-- The writer's drain loop (`while (!msgq_empty()) { msgq_first(); msgq_pop(); }`,
as in `AgentControlThread::loop`), collecting the messages in the order they are
taken.  `fuel` bounds the number of loop tests; `none` means the fuel ran out or
an operation failed. -/
def drain {π μ : Type} : Nat → Registry π μ → Accessor π → List μ →
    Option (Registry π μ × List μ)
  | 0, _, _, _ => none
  | fuel + 1, reg, w, taken =>
    match msgq_empty reg w with
    | .error _ => none
    | .ok true => some (reg, taken)
    | .ok false =>
      match msgq_first reg w with
      | .ok (some m) =>
        match msgq_pop reg w with
        | (reg1, .ok _) => drain fuel reg1 w (taken ++ [m])
        | (_, .error _) => none
      | _ => none

/-! ## Part II: `src/interfaces/SkillerInterface.cpp`

C strings are lists of characters; a list stands for the characters of a
NUL-terminated string or for the bytes of a character buffer.  The header
`SkillerInterface.h` and the base classes `Interface` and `Message` are not among
the sources; what the functions of `SkillerInterface.cpp` use of them is modelled
below. -/

/-- The NUL character that terminates a C string. -/
def NUL : Char := Char.ofNat 0

/-- The C string held in a character buffer: the characters before the first NUL. -/
def c_str (buf : List Char) : List Char :=
  buf.takeWhile (fun c => c != NUL)

/-- C library `strncmp(s1, s2, n)`: compares at most `n` characters and stops
after a NUL; zero means equal.  Reading at the end of a list yields the
terminating NUL. -/
def strncmp : List Char → List Char → Nat → Int
  | _, _, 0 => 0
  | s1, s2, n + 1 =>
    let c1 := s1.headD NUL
    let c2 := s2.headD NUL
    if c1 ≠ c2 then (c1.toNat : Int) - (c2.toNat : Int)
    else if c1 = NUL then 0
    else strncmp s1.tail s2.tail n

/-- C library `strncpy(dest, src, n)`: writes exactly `n` characters to `dest`,
the characters of `src` up to its NUL followed by NUL padding; when `src` has
`n` or more characters no NUL is written. -/
def strncpy (dest src : List Char) (n : Nat) : List Char :=
  (c_str src ++ List.replicate n NUL).take n ++ dest.drop n

/-- C library `memset(ptr, 0, size)` on a character buffer. -/
def memset_zero (size : Nat) : List Char :=
  List.replicate size NUL

/-- The exceptions thrown in `SkillerInterface.cpp` (`core/exceptions/software.h`). -/
inductive Exception where
  | UnknownTypeException
  | TypeMismatchException
deriving DecidableEq, Repr

/-- The field type tags used in `SkillerInterface.cpp` (`interface_fieldtype_t`). -/
inductive interface_fieldtype_t where
  | IFT_BOOL
  | IFT_UINT
  | IFT_STRING
  | IFT_ENUM
deriving DecidableEq, Repr

/-- One entry of a field-reflection table (`interface_fieldinfo_t`): type tag,
field name, length and, for an enum field, the name of the enum type.  The
pointer to the field value is not modelled. -/
structure interface_fieldinfo_t where
  type : interface_fieldtype_t
  name : String
  length : Nat
  enumtype : Option String
deriving DecidableEq, Repr

/-- A C++ class, identified by its enclosing scope and its name. -/
structure CppClass where
  scope : String
  name : String
deriving DecidableEq, Repr

/-- Modelled from the spec: a message object (class `Message`, absent from the
sources): "a typed, self-describing command object".  `dyn_class` is the dynamic
type of the object, `type` the message type name given to the base constructor,
`data` the bytes at `data_ptr` (`data_size` is their number, empty for a NULL
`data_ptr`), `fieldinfo` the field-reflection table. -/
structure Message where
  dyn_class : CppClass
  type : List Char
  data : List Char
  fieldinfo : List interface_fieldinfo_t
deriving DecidableEq, Repr

/-- Modelled from the spec: the base constructor `Message(const char *type)`
(absent from the sources): it records the type name and starts with no data and
an empty field-reflection table. -/
def Message.ctor (type : String) : Message :=
  { dyn_class := ⟨"fawkes", "Message"⟩, type := type.toList, data := [], fieldinfo := [] }

/-- Modelled from the spec: `Message::add_fieldinfo` (absent from the sources):
it appends one entry to the field-reflection table. -/
def Message.add_fieldinfo (m : Message) (type : interface_fieldtype_t) (name : String)
    (length : Nat) (enumtype : Option String) : Message :=
  { m with fieldinfo := m.fieldinfo ++ [⟨type, name, length, enumtype⟩] }

/-- The `data_size` of a message: the number of bytes at `data_ptr`. -/
def Message.data_size (m : Message) : Nat := m.data.length

/-- Embeds `dynamic_cast<const C *>(message)`: the message itself when its dynamic type
is `C`, NULL (`none`) otherwise and for a NULL pointer.  No class of the
repository derives from a message class, so only the class itself matches. -/
def dynamic_cast (C : CppClass) (message : Option Message) : Option Message :=
  match message with
  | none => none
  | some m => if m.dyn_class = C then some m else none

/-- Size of `ExecSkillMessage_data_t` and of `ExecSkillContinuousMessage_data_t`
(declared in the absent header): their only member is `char skill_string[1024]`. -/
def sizeof_ExecSkillMessage_data_t : Nat := 1024

/-- The class `SkillerInterface::ExecSkillMessage`. -/
def SkillerInterface.ExecSkillMessage.cls : CppClass := ⟨"SkillerInterface", "ExecSkillMessage"⟩
/-- The class `SkillerInterface::ExecSkillContinuousMessage`. -/
def SkillerInterface.ExecSkillContinuousMessage.cls : CppClass :=
  ⟨"SkillerInterface", "ExecSkillContinuousMessage"⟩
/-- The class `SkillerInterface::RestartInterpreterMessage`. -/
def SkillerInterface.RestartInterpreterMessage.cls : CppClass :=
  ⟨"SkillerInterface", "RestartInterpreterMessage"⟩
/-- The class `SkillerInterface::StopExecMessage`. -/
def SkillerInterface.StopExecMessage.cls : CppClass := ⟨"SkillerInterface", "StopExecMessage"⟩
/-- The class `SkillerInterface::AcquireControlMessage`. -/
def SkillerInterface.AcquireControlMessage.cls : CppClass :=
  ⟨"SkillerInterface", "AcquireControlMessage"⟩
/-- The class `SkillerInterface::ReleaseControlMessage`. -/
def SkillerInterface.ReleaseControlMessage.cls : CppClass :=
  ⟨"SkillerInterface", "ReleaseControlMessage"⟩

/-- Embeds `ExecSkillMessage::ExecSkillMessage(const char *ini_skill_string)`. -/
def SkillerInterface.ExecSkillMessage.ctor_ini (ini_skill_string : List Char) : Message :=
  let m := { Message.ctor "ExecSkillMessage" with dyn_class := SkillerInterface.ExecSkillMessage.cls }
  let m := { m with data := memset_zero sizeof_ExecSkillMessage_data_t }
  let m := { m with data := strncpy m.data ini_skill_string 1024 }
  m.add_fieldinfo .IFT_STRING "skill_string" 1024 none

/-- Embeds `ExecSkillMessage::ExecSkillMessage()`. -/
def SkillerInterface.ExecSkillMessage.ctor : Message :=
  let m := { Message.ctor "ExecSkillMessage" with dyn_class := SkillerInterface.ExecSkillMessage.cls }
  let m := { m with data := memset_zero sizeof_ExecSkillMessage_data_t }
  m.add_fieldinfo .IFT_STRING "skill_string" 1024 none

/-- Embeds `ExecSkillMessage::ExecSkillMessage(const ExecSkillMessage *m)`, the copy
constructor: `data_size = m->data_size`, and `memcpy` copies the `data_size`
bytes at `m->data_ptr`, that is all of `m.data`. -/
def SkillerInterface.ExecSkillMessage.ctor_copy (m : Message) : Message :=
  let c := { Message.ctor "ExecSkillMessage" with dyn_class := SkillerInterface.ExecSkillMessage.cls }
  { c with data := m.data }

/-- Embeds `ExecSkillMessage::skill_string()`: the buffer `data->skill_string`, the only
member of the data block. -/
def SkillerInterface.ExecSkillMessage.skill_string (m : Message) : List Char :=
  m.data

/-- Embeds `ExecSkillMessage::maxlenof_skill_string()`. -/
def SkillerInterface.ExecSkillMessage.maxlenof_skill_string (_m : Message) : Nat := 1024

/-- Embeds `ExecSkillMessage::set_skill_string(new_skill_string)`. -/
def SkillerInterface.ExecSkillMessage.set_skill_string (m : Message)
    (new_skill_string : List Char) : Message :=
  { m with data := strncpy m.data new_skill_string 1024 }

/-- Embeds `ExecSkillMessage::clone()`. -/
def SkillerInterface.ExecSkillMessage.clone (m : Message) : Message :=
  SkillerInterface.ExecSkillMessage.ctor_copy m

/-- Embeds `ExecSkillContinuousMessage::ExecSkillContinuousMessage(const char *ini_skill_string)`. -/
def SkillerInterface.ExecSkillContinuousMessage.ctor_ini (ini_skill_string : List Char) :
    Message :=
  let m := { Message.ctor "ExecSkillContinuousMessage" with
              dyn_class := SkillerInterface.ExecSkillContinuousMessage.cls }
  let m := { m with data := memset_zero sizeof_ExecSkillMessage_data_t }
  let m := { m with data := strncpy m.data ini_skill_string 1024 }
  m.add_fieldinfo .IFT_STRING "skill_string" 1024 none

/-- Embeds `ExecSkillContinuousMessage::ExecSkillContinuousMessage()`. -/
def SkillerInterface.ExecSkillContinuousMessage.ctor : Message :=
  let m := { Message.ctor "ExecSkillContinuousMessage" with
              dyn_class := SkillerInterface.ExecSkillContinuousMessage.cls }
  let m := { m with data := memset_zero sizeof_ExecSkillMessage_data_t }
  m.add_fieldinfo .IFT_STRING "skill_string" 1024 none

/-- Embeds `ExecSkillContinuousMessage::ExecSkillContinuousMessage(const ExecSkillContinuousMessage *m)`,
the copy constructor: `memcpy` of all `data_size` bytes of `m`. -/
def SkillerInterface.ExecSkillContinuousMessage.ctor_copy (m : Message) : Message :=
  let c := { Message.ctor "ExecSkillContinuousMessage" with
              dyn_class := SkillerInterface.ExecSkillContinuousMessage.cls }
  { c with data := m.data }

/-- Embeds `ExecSkillContinuousMessage::clone()`. -/
def SkillerInterface.ExecSkillContinuousMessage.clone (m : Message) : Message :=
  SkillerInterface.ExecSkillContinuousMessage.ctor_copy m

/-- Embeds `RestartInterpreterMessage::RestartInterpreterMessage()`: `data_size = 0`,
`data_ptr = NULL`. -/
def SkillerInterface.RestartInterpreterMessage.ctor : Message :=
  { Message.ctor "RestartInterpreterMessage" with
      dyn_class := SkillerInterface.RestartInterpreterMessage.cls, data := [] }

/-- Embeds `StopExecMessage::StopExecMessage()`. -/
def SkillerInterface.StopExecMessage.ctor : Message :=
  { Message.ctor "StopExecMessage" with
      dyn_class := SkillerInterface.StopExecMessage.cls, data := [] }

/-- Embeds `AcquireControlMessage::AcquireControlMessage()`. -/
def SkillerInterface.AcquireControlMessage.ctor : Message :=
  { Message.ctor "AcquireControlMessage" with
      dyn_class := SkillerInterface.AcquireControlMessage.cls, data := [] }

/-- Embeds `ReleaseControlMessage::ReleaseControlMessage()`. -/
def SkillerInterface.ReleaseControlMessage.ctor : Message :=
  { Message.ctor "ReleaseControlMessage" with
      dyn_class := SkillerInterface.ReleaseControlMessage.cls, data := [] }

/-- Embeds `SkillerInterface::create_message(type)`; `__INTERFACE_MESSAGE_TYPE_SIZE` is
a constant of the absent header `interface/interface.h`. -/
def SkillerInterface.create_message (__INTERFACE_MESSAGE_TYPE_SIZE : Nat) (type : List Char) :
    Except Exception Message :=
  if strncmp "ExecSkillMessage".toList type __INTERFACE_MESSAGE_TYPE_SIZE = 0 then
    .ok SkillerInterface.ExecSkillMessage.ctor
  else if strncmp "ExecSkillContinuousMessage".toList type __INTERFACE_MESSAGE_TYPE_SIZE = 0 then
    .ok SkillerInterface.ExecSkillContinuousMessage.ctor
  else if strncmp "RestartInterpreterMessage".toList type __INTERFACE_MESSAGE_TYPE_SIZE = 0 then
    .ok SkillerInterface.RestartInterpreterMessage.ctor
  else if strncmp "StopExecMessage".toList type __INTERFACE_MESSAGE_TYPE_SIZE = 0 then
    .ok SkillerInterface.StopExecMessage.ctor
  else if strncmp "AcquireControlMessage".toList type __INTERFACE_MESSAGE_TYPE_SIZE = 0 then
    .ok SkillerInterface.AcquireControlMessage.ctor
  else if strncmp "ReleaseControlMessage".toList type __INTERFACE_MESSAGE_TYPE_SIZE = 0 then
    .ok SkillerInterface.ReleaseControlMessage.ctor
  else
    .error .UnknownTypeException

/-- Embeds `SkillerInterface::message_valid(message)`. -/
def SkillerInterface.message_valid (message : Option Message) : Bool :=
  let m0 := dynamic_cast SkillerInterface.ExecSkillMessage.cls message
  if m0.isSome then true
  else
    let m1 := dynamic_cast SkillerInterface.ExecSkillContinuousMessage.cls message
    if m1.isSome then true
    else
      let m2 := dynamic_cast SkillerInterface.RestartInterpreterMessage.cls message
      if m2.isSome then true
      else
        let m3 := dynamic_cast SkillerInterface.StopExecMessage.cls message
        if m3.isSome then true
        else
          let m4 := dynamic_cast SkillerInterface.AcquireControlMessage.cls message
          if m4.isSome then true
          else
            let m5 := dynamic_cast SkillerInterface.ReleaseControlMessage.cls message
            if m5.isSome then true
            else false

/-- The six message classes of `SkillerInterface`. -/
def SkillerInterface.message_classes : List CppClass :=
  [ SkillerInterface.ExecSkillMessage.cls, SkillerInterface.ExecSkillContinuousMessage.cls,
    SkillerInterface.RestartInterpreterMessage.cls, SkillerInterface.StopExecMessage.cls,
    SkillerInterface.AcquireControlMessage.cls, SkillerInterface.ReleaseControlMessage.cls ]

/-- The six message type names of `SkillerInterface`. -/
def SkillerInterface.message_type_names : List String :=
  [ "ExecSkillMessage", "ExecSkillContinuousMessage", "RestartInterpreterMessage",
    "StopExecMessage", "AcquireControlMessage", "ReleaseControlMessage" ]

/-- The data block `SkillerInterface_data_t` (declared in the absent header), with
the five members the constructor registers: `char skill_string[1024]`,
`char error[128]`, `unsigned int exclusive_controller`, `SkillStatusEnum status`
(held as its integer value) and `bool continuous`. -/
structure SkillerInterface_data_t where
  skill_string : List Char
  error : List Char
  exclusive_controller : Nat
  status : Nat
  continuous : Bool
deriving DecidableEq, Repr

/-- Embeds `memset(data_ptr, 0, data_size)` on a `SkillerInterface_data_t`: every
member is all-zero bytes. -/
def SkillerInterface_data_t.zero : SkillerInterface_data_t :=
  { skill_string := memset_zero 1024, error := memset_zero 128,
    exclusive_controller := 0, status := 0, continuous := false }

/-- A `SkillerInterface` object: its data block and the tables kept by the base
class `Interface` (field-reflection table, message type table, schema hash). -/
structure SkillerInterface where
  data : SkillerInterface_data_t
  fieldinfo : List interface_fieldinfo_t
  messageinfo : List String
  hash : List Nat
deriving DecidableEq, Repr

/-- Modelled from the spec: the base constructor `Interface()` (absent from the
sources): the reflection tables start empty ("populated once at accessor
construction").  It does not set up the data block, which the constructor of
the derived class allocates and clears; `uninit` is the indeterminate content
that the object has for it until then. -/
def SkillerInterface.base_ctor (uninit : SkillerInterface_data_t) : SkillerInterface :=
  { data := uninit, fieldinfo := [], messageinfo := [], hash := [] }

/-- Modelled from the spec: `Interface::add_fieldinfo` (absent from the sources):
it appends one entry (name, type tag, length) to the field-reflection table. -/
def SkillerInterface.add_fieldinfo (i : SkillerInterface) (type : interface_fieldtype_t)
    (name : String) (length : Nat) (enumtype : Option String) : SkillerInterface :=
  { i with fieldinfo := i.fieldinfo ++ [⟨type, name, length, enumtype⟩] }

/-- Modelled from the spec: `Interface::add_messageinfo` (absent from the
sources): it appends one message type name to the message type table. -/
def SkillerInterface.add_messageinfo (i : SkillerInterface) (name : String) : SkillerInterface :=
  { i with messageinfo := i.messageinfo ++ [name] }

/-- Modelled from the spec: `Interface::set_hash` (absent from the sources): it
stores the schema hash. -/
def SkillerInterface.set_hash (i : SkillerInterface) (hash : List Nat) : SkillerInterface :=
  { i with hash := hash }

/-- Embeds `SkillerInterface::SkillerInterface()`.  `uninit` is the indeterminate
content of the block that `malloc(data_size)` returns; `memset(data_ptr, 0,
data_size)` then clears the block. -/
def SkillerInterface.ctor (uninit : SkillerInterface_data_t) : SkillerInterface :=
  let i := SkillerInterface.base_ctor uninit
  let i := { i with data := uninit }
  let i := { i with data := SkillerInterface_data_t.zero }
  let i := i.add_fieldinfo .IFT_STRING "skill_string" 1024 none
  let i := i.add_fieldinfo .IFT_STRING "error" 128 none
  let i := i.add_fieldinfo .IFT_UINT "exclusive_controller" 1 none
  let i := i.add_fieldinfo .IFT_ENUM "status" 1 (some "SkillStatusEnum")
  let i := i.add_fieldinfo .IFT_BOOL "continuous" 1 none
  let i := i.add_messageinfo "ExecSkillMessage"
  let i := i.add_messageinfo "ExecSkillContinuousMessage"
  let i := i.add_messageinfo "RestartInterpreterMessage"
  let i := i.add_messageinfo "StopExecMessage"
  let i := i.add_messageinfo "AcquireControlMessage"
  let i := i.add_messageinfo "ReleaseControlMessage"
  let tmp_hash : List Nat :=
    [0x61, 0x7c, 0x70, 0xc4, 0x68, 0x8b, 0x8b, 0x69, 0x87, 0xc1, 0xd1, 0xe6, 0xed, 0x34, 0xb5, 0x5]
  i.set_hash tmp_hash

/-- Embeds `SkillerInterface::skill_string()`: the buffer `data->skill_string`. -/
def SkillerInterface.skill_string (i : SkillerInterface) : List Char := i.data.skill_string

/-- Embeds `SkillerInterface::maxlenof_skill_string()`. -/
def SkillerInterface.maxlenof_skill_string (_i : SkillerInterface) : Nat := 1024

/-- Embeds `SkillerInterface::set_skill_string(new_skill_string)`. -/
def SkillerInterface.set_skill_string (i : SkillerInterface) (new_skill_string : List Char) :
    SkillerInterface :=
  { i with data := { i.data with
      skill_string := strncpy i.data.skill_string new_skill_string 1024 } }

/-- Embeds `SkillerInterface::error()`: the buffer `data->error`. -/
def SkillerInterface.error (i : SkillerInterface) : List Char := i.data.error

/-- Embeds `SkillerInterface::maxlenof_error()`. -/
def SkillerInterface.maxlenof_error (_i : SkillerInterface) : Nat := 128

/-- Embeds `SkillerInterface::set_error(new_error)`. -/
def SkillerInterface.set_error (i : SkillerInterface) (new_error : List Char) :
    SkillerInterface :=
  { i with data := { i.data with error := strncpy i.data.error new_error 128 } }

/-- Embeds `SkillerInterface::exclusive_controller()`. -/
def SkillerInterface.exclusive_controller (i : SkillerInterface) : Nat :=
  i.data.exclusive_controller

/-- Embeds `SkillerInterface::maxlenof_exclusive_controller()`. -/
def SkillerInterface.maxlenof_exclusive_controller (_i : SkillerInterface) : Nat := 1

/-- Embeds `SkillerInterface::set_exclusive_controller(new_exclusive_controller)`; the
argument is an `unsigned int`. -/
def SkillerInterface.set_exclusive_controller (i : SkillerInterface)
    (new_exclusive_controller : Nat) : SkillerInterface :=
  { i with data := { i.data with exclusive_controller := new_exclusive_controller % 2 ^ 32 } }

/-- Embeds `SkillerInterface::status()`: the integer value of the `SkillStatusEnum`. -/
def SkillerInterface.status (i : SkillerInterface) : Nat := i.data.status

/-- Embeds `SkillerInterface::maxlenof_status()`. -/
def SkillerInterface.maxlenof_status (_i : SkillerInterface) : Nat := 1

/-- Embeds `SkillerInterface::set_status(new_status)`. -/
def SkillerInterface.set_status (i : SkillerInterface) (new_status : Nat) : SkillerInterface :=
  { i with data := { i.data with status := new_status } }

/-- Embeds `SkillerInterface::is_continuous()`. -/
def SkillerInterface.is_continuous (i : SkillerInterface) : Bool := i.data.continuous

/-- Embeds `SkillerInterface::maxlenof_continuous()`. -/
def SkillerInterface.maxlenof_continuous (_i : SkillerInterface) : Nat := 1

/-- Embeds `SkillerInterface::set_continuous(new_continuous)`. -/
def SkillerInterface.set_continuous (i : SkillerInterface) (new_continuous : Bool) :
    SkillerInterface :=
  { i with data := { i.data with continuous := new_continuous } }

/-- An interface object seen through a `const Interface *`: a `SkillerInterface`
or an instance of another interface class (its type name and data bytes). -/
inductive Interface where
  | Skiller (i : SkillerInterface)
  | Other (type : String) (data : List Char)
deriving DecidableEq, Repr

/-- Embeds `dynamic_cast<const SkillerInterface *>(other)`. -/
def dynamic_cast_SkillerInterface (other : Interface) : Option SkillerInterface :=
  match other with
  | .Skiller i => some i
  | .Other _ _ => none

/-- Embeds `SkillerInterface::copy_values(other)`: returns the receiver and `other`
after the call, and the exception thrown, if any.  `memcpy` copies the whole data
block of `other`. -/
def SkillerInterface.copy_values (self : SkillerInterface) (other : Interface) :
    (SkillerInterface × Interface) × Except Exception Unit :=
  let oi := dynamic_cast_SkillerInterface other
  match oi with
  | none => ((self, other), .error .TypeMismatchException)
  | some oi => (({ self with data := oi.data }, other), .ok ())

/-! ### Message objects in memory

To speak about aliasing (a clone must own its data block) the message classes
are also embedded over an explicit heap of `malloc`ed blocks. -/

/-- The heap of `malloc`ed data blocks: `mem` gives the bytes of the block at an
address, `brk` is the next address `malloc` hands out (all addresses from `brk`
on are unused). -/
structure Heap where
  mem : Nat → Option (List Char)
  brk : Nat

/-- Store the bytes `bytes` in the block at address `p`. -/
def Heap.store (h : Heap) (p : Nat) (bytes : List Char) : Heap :=
  { h with mem := fun a => if a = p then some bytes else h.mem a }

/-- The bytes of the block at address `p` (no bytes for an address that holds no block). -/
def Heap.load (h : Heap) (p : Nat) : List Char :=
  (h.mem p).getD []

/-- C library `malloc(size)`: a fresh block of `size` bytes at a new address; its
content is indeterminate and given by `uninit`. -/
def Heap.malloc (h : Heap) (size : Nat) (uninit : Nat → Char) : Heap × Nat :=
  ({ mem := fun a => if a = h.brk then some ((List.range size).map uninit) else h.mem a,
     brk := h.brk + 1 }, h.brk)

/-- C library `memcpy(dest, src, n)` on the bytes of two blocks: the first `n`
bytes of `dest` are replaced by those of `src`. -/
def memcpy (dest src : List Char) (n : Nat) : List Char :=
  src.take n ++ dest.drop n

/-- A message object whose data block lives on the heap: the members of
`Message`, with `data_ptr` the address of the block. -/
structure MessageObj where
  dyn_class : CppClass
  type : List Char
  data_ptr : Nat
  data_size : Nat
  fieldinfo : List interface_fieldinfo_t
deriving DecidableEq, Repr

/-- The value of a message object: its members with the bytes found at `data_ptr`. -/
def MessageObj.value (h : Heap) (m : MessageObj) : Message :=
  { dyn_class := m.dyn_class, type := m.type, data := h.load m.data_ptr,
    fieldinfo := m.fieldinfo }

/-- Embeds `ExecSkillMessage::ExecSkillMessage(const ExecSkillMessage *m)`, the copy
constructor, on the heap: `data_size = m->data_size`, `data_ptr = malloc(data_size)`,
`memcpy(data_ptr, m->data_ptr, data_size)`. -/
def SkillerInterface.ExecSkillMessage.ctor_copy_at (h : Heap) (uninit : Nat → Char)
    (m : MessageObj) : Heap × MessageObj :=
  let base := Message.ctor "ExecSkillMessage"
  let data_size := m.data_size
  let (h1, data_ptr) := h.malloc data_size uninit
  let h2 := h1.store data_ptr (memcpy (h1.load data_ptr) (h1.load m.data_ptr) data_size)
  (h2, { dyn_class := SkillerInterface.ExecSkillMessage.cls, type := base.type,
         data_ptr := data_ptr, data_size := data_size, fieldinfo := base.fieldinfo })

/-- Embeds `ExecSkillMessage::clone()` on the heap: `new ExecSkillMessage(this)`. -/
def SkillerInterface.ExecSkillMessage.clone_at (h : Heap) (uninit : Nat → Char)
    (m : MessageObj) : Heap × MessageObj :=
  SkillerInterface.ExecSkillMessage.ctor_copy_at h uninit m

/-- Embeds `ExecSkillMessage::skill_string()` on the heap: the buffer `data->skill_string`. -/
def SkillerInterface.ExecSkillMessage.skill_string_at (h : Heap) (m : MessageObj) : List Char :=
  h.load m.data_ptr

/-- Embeds `ExecSkillMessage::set_skill_string(new_skill_string)` on the heap. -/
def SkillerInterface.ExecSkillMessage.set_skill_string_at (h : Heap) (m : MessageObj)
    (new_skill_string : List Char) : Heap :=
  h.store m.data_ptr (strncpy (h.load m.data_ptr) new_skill_string 1024)

/-! ### `src/libs/blackboard/blackboard.cpp` -/

/-- Data changed notification flag. -/
def BlackBoard.BBIL_FLAG_DATA : Nat := 1
/-- Message received notification flag. -/
def BlackBoard.BBIL_FLAG_MESSAGES : Nat := 2
/-- Reader added/removed notification flag. -/
def BlackBoard.BBIL_FLAG_READER : Nat := 4
/-- Writer added/removed notification flag. -/
def BlackBoard.BBIL_FLAG_WRITER : Nat := 8

/-- All interface listener notifications. -/
def BlackBoard.BBIL_FLAG_ALL : Nat :=
  BlackBoard.BBIL_FLAG_DATA ||| BlackBoard.BBIL_FLAG_MESSAGES |||
    BlackBoard.BBIL_FLAG_READER ||| BlackBoard.BBIL_FLAG_WRITER

/-- Interface creation notification flag. -/
def BlackBoard.BBIO_FLAG_CREATED : Nat := 1
/-- Interface destruction notification flag. -/
def BlackBoard.BBIO_FLAG_DESTROYED : Nat := 2

/-- All interface observer notifications. -/
def BlackBoard.BBIO_FLAG_ALL : Nat :=
  BlackBoard.BBIO_FLAG_CREATED ||| BlackBoard.BBIO_FLAG_DESTROYED

/-- The four listener flags, as a family. -/
def BlackBoard.listener_flags : List Nat :=
  [ BlackBoard.BBIL_FLAG_DATA, BlackBoard.BBIL_FLAG_MESSAGES,
    BlackBoard.BBIL_FLAG_READER, BlackBoard.BBIL_FLAG_WRITER ]

/-- The two observer flags, as a family. -/
def BlackBoard.observer_flags : List Nat :=
  [ BlackBoard.BBIO_FLAG_CREATED, BlackBoard.BBIO_FLAG_DESTROYED ]

/-- The event mask of a set of flags: their bitwise OR ("an or'ed combination"
of flags, as `register_listener` and `register_observer` take it). -/
def BlackBoard.event_mask (flags : List Nat) : Nat :=
  flags.foldl (fun acc f => acc ||| f) 0

/-- The exception of the C++ standard library thrown by `std::string::substr`. -/
inductive StdException where
  | out_of_range
deriving DecidableEq, Repr

/-- The constant `std::string::npos`, the largest `size_t` (64 bits). -/
def npos : Nat := 2 ^ 64 - 1

/-- The conversion `std::string t = type` from a `const char *`: the characters
before the terminating NUL. -/
def std_string (type : List Char) : List Char :=
  c_str type

/-- The call `t.substr(pos, len)`: throws `out_of_range` when `pos` exceeds the
size, else the at most `len` characters from `pos` on. -/
def substr (t : List Char) (pos len : Nat) : Except StdException (List Char) :=
  if pos > t.length then .error .out_of_range
  else .ok ((t.drop pos).take len)

/-- The call `t.substr(pos)`, whose length argument defaults to `npos`: throws
`out_of_range` when `pos` exceeds the size, else all characters from `pos` to
the end of the string. -/
def substr_to_end (t : List Char) (pos : Nat) : Except StdException (List Char) :=
  if pos > t.length then .error .out_of_range
  else .ok (t.drop pos)

/-- Scan of `find_first_not_of` from index `i` on. -/
def find_first_not_of_from (chars : List Char) : List Char → Nat → Nat
  | [], _ => npos
  | c :: cs, i => if chars.contains c then find_first_not_of_from chars cs (i + 1) else i

/-- The call `t.find_first_not_of(chars)`: the index of the first character of
`t` that is not in `chars`, `npos` when there is none. -/
def find_first_not_of (t chars : List Char) : Nat :=
  find_first_not_of_from chars t 0

/-- The value of `t.length() - 1` in `size_t` arithmetic: it wraps to the
largest `size_t` for an empty string. -/
def length_minus_one (t : List Char) : Nat :=
  if t.length = 0 then npos else t.length - 1

/-- Embeds `BlackBoard::demangle_fawkes_interface_name(type)`. -/
def BlackBoard.demangle_fawkes_interface_name (type : List Char) :
    Except StdException (List Char) :=
  let t := std_string type
  match substr_to_end t 8 with
  | .error e => .error e
  | .ok t =>
    match substr_to_end t (find_first_not_of t "0123456789".toList) with
    | .error e => .error e
    | .ok t => substr t 0 (length_minus_one t)

/-- The GCC-mangled signature of the class `n` of namespace `fawkes`:
`N6fawkes`, the decimal length of `n`, `n` and `E`. -/
def mangled_fawkes_name (n : List Char) : List Char :=
  "N6fawkes".toList ++ Nat.toDigits 10 n.length ++ n ++ ['E']

/-! ### `src/libs/netcomm/fawkes/message.cpp` and `client.cpp` -/

/-- The exceptions thrown in `message.cpp` and in `client.cpp`. -/
inductive NetcommException where
  | FawkesNetworkMessageTooBigException (message_size : Nat)
  | HandlerAlreadyRegisteredException
deriving DecidableEq, Repr

/-- Byte swap of a 16-bit value: the low byte becomes the high byte. -/
def bswap16 (x : Nat) : Nat :=
  x % 256 * 256 + x / 256 % 256

/-- Byte reversal of a 32-bit value: byte `i` becomes byte `3 - i`. -/
def bswap32 (x : Nat) : Nat :=
  ((x % 256 * 256 + x / 256 % 256) * 256 + x / 256 / 256 % 256) * 256 +
    x / 256 / 256 / 256 % 256

/-- C library `htons(x)` (the argument is converted to 16 bits): the two bytes
are swapped on a little-endian host and kept on a big-endian host. -/
def htons (host_little_endian : Bool) (x : Nat) : Nat :=
  if host_little_endian then bswap16 (x % 2 ^ 16) else x % 2 ^ 16

/-- C library `ntohs(x)`: the same byte swap as `htons`. -/
def ntohs (host_little_endian : Bool) (x : Nat) : Nat :=
  htons host_little_endian x

/-- C library `htonl(x)` (the argument is converted to 32 bits): the four bytes
are reversed on a little-endian host and kept on a big-endian host. -/
def htonl (host_little_endian : Bool) (x : Nat) : Nat :=
  if host_little_endian then bswap32 (x % 2 ^ 32) else x % 2 ^ 32

/-- C library `ntohl(x)`: the same byte reversal as `htonl`. -/
def ntohl (host_little_endian : Bool) (x : Nat) : Nat :=
  htonl host_little_endian x

/-- The message header `fawkes_message_header_t` (declared in the absent header
`message.h`): component ID and message ID (16 bits each) and payload size (32
bits), all held in network byte order. -/
structure fawkes_message_header_t where
  cid : Nat
  msg_id : Nat
  payload_size : Nat
deriving DecidableEq, Repr

/-- The message `fawkes_message_t`: header and payload pointer (0 is NULL). -/
structure fawkes_message_t where
  header : fawkes_message_header_t
  payload : Nat
deriving DecidableEq, Repr

/-- The members `_clid` and `_msg` of a `FawkesNetworkMessage` object. -/
structure FawkesNetworkMessage where
  clid_ : Nat
  msg_ : fawkes_message_t
deriving DecidableEq, Repr

/-- Embeds `FawkesNetworkMessage::FawkesNetworkMessage()`: `memset` of `_msg` to zero and
`_clid = 0`. -/
def FawkesNetworkMessage.ctor : FawkesNetworkMessage :=
  { clid_ := 0, msg_ := { header := { cid := 0, msg_id := 0, payload_size := 0 }, payload := 0 } }

/-- Embeds `FawkesNetworkMessage::FawkesNetworkMessage(unsigned int clid, fawkes_message_t &msg)`. -/
def FawkesNetworkMessage.ctor_clid_msg (clid : Nat) (msg : fawkes_message_t) :
    FawkesNetworkMessage :=
  { clid_ := clid % 2 ^ 32, msg_ := msg }

/-- Embeds `FawkesNetworkMessage::FawkesNetworkMessage(fawkes_message_t &msg)`. -/
def FawkesNetworkMessage.ctor_msg (msg : fawkes_message_t) : FawkesNetworkMessage :=
  { clid_ := 0, msg_ := msg }

/-- Embeds `FawkesNetworkMessage::FawkesNetworkMessage(cid, msg_id, payload, payload_size)`.
`uninit` is the indeterminate content of the object before the constructor
runs; the constructor assigns the four members of `_msg` and nothing else. -/
def FawkesNetworkMessage.ctor_cid_msgid_payload (host_little_endian : Bool)
    (uninit : FawkesNetworkMessage) (cid msg_id payload payload_size : Nat) :
    Except NetcommException FawkesNetworkMessage :=
  if payload_size > 0xFFFFFFFF then
    .error (.FawkesNetworkMessageTooBigException payload_size)
  else
    .ok { uninit with
      msg_ := { header := { cid := htons host_little_endian cid,
                            msg_id := htons host_little_endian msg_id,
                            payload_size := htonl host_little_endian payload_size },
                payload := payload } }

/-- Embeds `FawkesNetworkMessage::FawkesNetworkMessage(cid, msg_id, payload_size)`;
`calloc_result` is the pointer returned by `calloc(1, payload_size)`. -/
def FawkesNetworkMessage.ctor_cid_msgid_size (host_little_endian : Bool)
    (uninit : FawkesNetworkMessage) (calloc_result : Nat) (cid msg_id payload_size : Nat) :
    Except NetcommException FawkesNetworkMessage :=
  if payload_size > 0xFFFFFFFF then
    .error (.FawkesNetworkMessageTooBigException payload_size)
  else
    .ok { uninit with
      msg_ := { header := { cid := htons host_little_endian cid,
                            msg_id := htons host_little_endian msg_id,
                            payload_size := htonl host_little_endian payload_size },
                payload := calloc_result } }

/-- Embeds `FawkesNetworkMessage::FawkesNetworkMessage(cid, msg_id)`. -/
def FawkesNetworkMessage.ctor_cid_msgid (host_little_endian : Bool)
    (uninit : FawkesNetworkMessage) (cid msg_id : Nat) : FawkesNetworkMessage :=
  { uninit with
    msg_ := { header := { cid := htons host_little_endian cid,
                          msg_id := htons host_little_endian msg_id,
                          payload_size := 0 },
              payload := 0 } }

/-- Embeds `FawkesNetworkMessage::FawkesNetworkMessage(clid, cid, msg_id, payload,
payload_size)`. -/
def FawkesNetworkMessage.ctor_clid_cid_msgid_payload (host_little_endian : Bool)
    (clid cid msg_id payload payload_size : Nat) :
    Except NetcommException FawkesNetworkMessage :=
  if payload_size > 0xFFFFFFFF then
    .error (.FawkesNetworkMessageTooBigException payload_size)
  else
    .ok { clid_ := clid % 2 ^ 32,
          msg_ := { header := { cid := htons host_little_endian cid,
                                msg_id := htons host_little_endian msg_id,
                                payload_size := htonl host_little_endian payload_size },
                    payload := payload } }

/-- Embeds `FawkesNetworkMessage::FawkesNetworkMessage(clid, cid, msg_id)`. -/
def FawkesNetworkMessage.ctor_clid_cid_msgid (host_little_endian : Bool)
    (clid cid msg_id : Nat) : FawkesNetworkMessage :=
  { clid_ := clid % 2 ^ 32,
    msg_ := { header := { cid := htons host_little_endian cid,
                          msg_id := htons host_little_endian msg_id,
                          payload_size := 0 },
              payload := 0 } }

/-- Embeds `FawkesNetworkMessage::clid()`. -/
def FawkesNetworkMessage.clid (m : FawkesNetworkMessage) : Nat := m.clid_

/-- Embeds `FawkesNetworkMessage::cid()`. -/
def FawkesNetworkMessage.cid (host_little_endian : Bool) (m : FawkesNetworkMessage) : Nat :=
  ntohs host_little_endian m.msg_.header.cid

/-- Embeds `FawkesNetworkMessage::msgid()`. -/
def FawkesNetworkMessage.msgid (host_little_endian : Bool) (m : FawkesNetworkMessage) : Nat :=
  ntohs host_little_endian m.msg_.header.msg_id

/-- Embeds `FawkesNetworkMessage::payload_size()`. -/
def FawkesNetworkMessage.payload_size (host_little_endian : Bool) (m : FawkesNetworkMessage) :
    Nat :=
  ntohl host_little_endian m.msg_.header.payload_size

/-- Embeds `FawkesNetworkMessage::payload()`. -/
def FawkesNetworkMessage.payload (m : FawkesNetworkMessage) : Nat := m.msg_.payload

/-- Embeds `FawkesNetworkMessage::setClientID(clid)`. -/
def FawkesNetworkMessage.setClientID (m : FawkesNetworkMessage) (clid : Nat) :
    FawkesNetworkMessage :=
  { m with clid_ := clid % 2 ^ 32 }

/-- Embeds `FawkesNetworkMessage::setComponentID(cid)`. -/
def FawkesNetworkMessage.setComponentID (host_little_endian : Bool) (m : FawkesNetworkMessage)
    (cid : Nat) : FawkesNetworkMessage :=
  { m with msg_ := { m.msg_ with
      header := { m.msg_.header with cid := htons host_little_endian cid } } }

/-- Embeds `FawkesNetworkMessage::setMessageID(msg_id)`. -/
def FawkesNetworkMessage.setMessageID (host_little_endian : Bool) (m : FawkesNetworkMessage)
    (msg_id : Nat) : FawkesNetworkMessage :=
  { m with msg_ := { m.msg_ with
      header := { m.msg_.header with msg_id := htons host_little_endian msg_id } } }

/-- Embeds `FawkesNetworkMessage::setPayload(payload, payload_size)`: returns the message
after the call and the exception thrown, if any. -/
def FawkesNetworkMessage.setPayload (host_little_endian : Bool) (m : FawkesNetworkMessage)
    (payload payload_size : Nat) : FawkesNetworkMessage × Except NetcommException Unit :=
  if payload_size > 0xFFFFFFFF then
    (m, .error (.FawkesNetworkMessageTooBigException payload_size))
  else
    ({ m with
        msg_ := { header := { m.msg_.header with
                    payload_size := htonl host_little_endian payload_size },
                  payload := payload } }, .ok ())

/-- The handler map `handlers` and the wait-condition map `waitconds` of a
`FawkesNetworkClient`, both keyed by component ID (the `std::map`s are functions
to an optional pointer; no entry is `none`).  The lock taken around the body of
the methods below concerns other threads and is not modelled. -/
structure FawkesNetworkClient where
  handlers : Nat → Option Nat
  waitconds : Nat → Option Nat

/-- A client without handlers, as constructed. -/
def FawkesNetworkClient.ctor : FawkesNetworkClient :=
  { handlers := fun _ => none, waitconds := fun _ => none }

/-- Embeds `FawkesNetworkClient::register_handler(handler, component_id)`: returns the
client after the call and the exception thrown, if any.  `new_waitcond` is the
pointer returned by `new WaitCondition(__recv_mutex)`. -/
def FawkesNetworkClient.register_handler (c : FawkesNetworkClient) (new_waitcond : Nat)
    (handler component_id : Nat) : FawkesNetworkClient × Except NetcommException Unit :=
  if (c.handlers component_id).isSome then
    (c, .error .HandlerAlreadyRegisteredException)
  else
    ({ handlers := fun k => if k = component_id then some handler else c.handlers k,
       waitconds := fun k => if k = component_id then some new_waitcond else c.waitconds k },
     .ok ())

/-- Embeds `FawkesNetworkClient::deregister_handler(component_id)`: both entries of the
component are erased (the callback `deregistered` of the handler is outside the
client). -/
def FawkesNetworkClient.deregister_handler (c : FawkesNetworkClient) (component_id : Nat) :
    FawkesNetworkClient :=
  let handlers := if (c.handlers component_id).isSome
    then fun k => if k = component_id then none else c.handlers k
    else c.handlers
  let waitconds := if (c.waitconds component_id).isSome
    then fun k => if k = component_id then none else c.waitconds k
    else c.waitconds
  { handlers := handlers, waitconds := waitconds }

/-- The two maps of a client have the same keys. -/
def FawkesNetworkClient.in_sync (c : FawkesNetworkClient) : Prop :=
  ∀ k, (c.handlers k).isSome = (c.waitconds k).isSome

/-! ### `src/libs/aspect/tf.cpp` -/

/-- The modes of a `TransformAspect` (`TransformAspect::Mode`, declared in the
absent header `aspect/tf.h`), as `tf.cpp` uses them. -/
inductive TransformAspect.Mode where
  | ONLY_LISTENER
  | ONLY_PUBLISHER
  | DEFER_PUBLISHER
  | BOTH
  | BOTH_DEFER_PUBLISHER
deriving DecidableEq, Repr

/-- The exceptions thrown in `tf.cpp`. -/
inductive AspectException where
  | CannotInitializeThreadException
  | Exception
deriving DecidableEq, Repr

/-- A `tf::TransformPublisher` as constructed by `new tf::TransformPublisher(bb, id)`:
the blackboard pointer and the interface ID it was given (NULL is `none`). -/
structure TransformPublisher where
  blackboard : Option Nat
  bb_iface_id : Option (List Char)
deriving DecidableEq, Repr

/-- The transform listener pointer `tf_listener`: the shared transformer or a
listener of its own (`new tf::TransformListener(NULL)`). -/
inductive TransformListenerPtr where
  | shared (transformer : Nat)
  | own
deriving DecidableEq, Repr

/-- The members of a `TransformAspect` (the names of the source without their
leading underscores); pointers are optional values, NULL is `none`. -/
structure TransformAspect where
  tf_aspect_mode : TransformAspect.Mode
  tf_aspect_bb_iface_id : Option (List Char)
  tf_aspect_blackboard : Option Nat
  tf_aspect_own_listener : Bool
  tf_listener : Option TransformListenerPtr
  tf_publisher : Option TransformPublisher
deriving DecidableEq, Repr

/-- Embeds `TransformAspect::TransformAspect(mode, tf_bb_iface_id)`.  `uninit` is the
indeterminate content of the object before the constructor runs; the
constructor assigns the mode, the interface ID (`strdup` of the argument, or 0)
and the blackboard pointer. -/
def TransformAspect.ctor (uninit : TransformAspect) (mode : TransformAspect.Mode)
    (tf_bb_iface_id : Option (List Char)) : TransformAspect :=
  let a := { uninit with tf_aspect_mode := mode }
  let a :=
    if (mode = .ONLY_PUBLISHER ∨ mode = .BOTH ∨ mode = .BOTH_DEFER_PUBLISHER)
        ∧ tf_bb_iface_id.isSome then
      { a with tf_aspect_bb_iface_id := tf_bb_iface_id.map c_str }
    else
      { a with tf_aspect_bb_iface_id := none }
  { a with tf_aspect_blackboard := none }

/-- Embeds `TransformAspect::init_TransformAspect(blackboard, transformer)`: returns the
aspect after the call and the exception thrown, if any. -/
def TransformAspect.init_TransformAspect (a : TransformAspect) (blackboard transformer : Nat) :
    TransformAspect × Except AspectException Unit :=
  if (a.tf_aspect_mode = .ONLY_PUBLISHER ∨ a.tf_aspect_mode = .BOTH)
      ∧ a.tf_aspect_bb_iface_id = none then
    (a, .error .CannotInitializeThreadException)
  else
    let a := { a with tf_aspect_blackboard := some blackboard }
    if (a.tf_aspect_mode = .DEFER_PUBLISHER ∨ a.tf_aspect_mode = .BOTH_DEFER_PUBLISHER)
        ∧ a.tf_aspect_bb_iface_id = none then
      (a, .error .CannotInitializeThreadException)
    else
      let a :=
        if a.tf_aspect_mode = .ONLY_LISTENER ∨ a.tf_aspect_mode = .BOTH
            ∨ a.tf_aspect_mode = .BOTH_DEFER_PUBLISHER then
          { a with tf_aspect_own_listener := false,
                   tf_listener := some (.shared transformer) }
        else
          { a with tf_aspect_own_listener := true, tf_listener := some .own }
      let a :=
        if a.tf_aspect_mode = .ONLY_PUBLISHER ∨ a.tf_aspect_mode = .BOTH then
          { a with tf_publisher := some ⟨some blackboard, a.tf_aspect_bb_iface_id⟩ }
        else
          { a with tf_publisher := some ⟨none, none⟩ }
      (a, .ok ())

/-- Embeds `TransformAspect::tf_enable_publisher()`: returns the aspect after the call
and the exception thrown, if any. -/
def TransformAspect.tf_enable_publisher (a : TransformAspect) :
    TransformAspect × Except AspectException Unit :=
  if a.tf_aspect_mode ≠ .DEFER_PUBLISHER ∧ a.tf_aspect_mode ≠ .BOTH_DEFER_PUBLISHER then
    (a, .error .Exception)
  else
    ({ a with tf_publisher := some ⟨a.tf_aspect_blackboard, a.tf_aspect_bb_iface_id⟩ }, .ok ())

/-! ### `src/plugins/readylogagent/control_thread.cpp`

The interface class `TestInterface` is declared in an absent header; what
`AgentControlThread::loop` uses of it is modelled below.  The queue operations
are those of Part I. -/

/-- The value of the C type `int` (32 bits, two's complement) that an integer
wraps to. -/
def wrap_int32 (x : Int) : Int :=
  (x + 2 ^ 31) % 2 ^ 32 - 2 ^ 31

/-- The C expression `a + b` on two `int`s. -/
def int_add (a b : Int) : Int :=
  wrap_int32 (a + b)

/-- The data block of a `TestInterface`: the `int` field `result` that the loop
sets, and the bytes of the other fields. -/
structure TestInterface_data_t where
  result : Int
  other_fields : List Char
deriving DecidableEq, Repr

/-- A message in the queue of a `TestInterface`: a
`TestInterface::CalculateMessage` with its `int` fields `summand` and `addend`,
or a message of another class. -/
inductive TestInterface.QueuedMessage where
  | CalculateMessage (summand addend : Int)
  | Other (cls : CppClass)
deriving DecidableEq, Repr

/-- Embeds `set_result(new_result)` of a `TestInterface` accessor: it sets the field in
the local copy of the data. -/
def TestInterface.set_result (iface : Accessor TestInterface_data_t) (new_result : Int) :
    Accessor TestInterface_data_t :=
  iface.set_data { iface.data with result := new_result }

/-- The body of the `if` in the loop: for a first message that is a
`CalculateMessage` (`msgq_first_is<CalculateMessage>()`), the result is set to
`msg->summand() + msg->addend()`; any other message leaves the accessor as is. -/
def AgentControlThread.handle (iface : Accessor TestInterface_data_t) :
    TestInterface.QueuedMessage → Accessor TestInterface_data_t
  | .CalculateMessage summand addend => TestInterface.set_result iface (int_add summand addend)
  | .Other _ => iface

/-- The `while ( !m_test_iface->msgq_empty() )` loop of `AgentControlThread::loop`.
`fuel` bounds the number of loop tests and `popped` records the messages in the
order they are popped; `none` means that the fuel ran out or that a queue
operation threw. -/
def AgentControlThread.drain_loop :
    Nat → Registry TestInterface_data_t TestInterface.QueuedMessage →
    Accessor TestInterface_data_t → List TestInterface.QueuedMessage →
    Option (Registry TestInterface_data_t TestInterface.QueuedMessage ×
      Accessor TestInterface_data_t × List TestInterface.QueuedMessage)
  | 0, _, _, _ => none
  | fuel + 1, reg, m_test_iface, popped =>
    match msgq_empty reg m_test_iface with
    | .error _ => none
    | .ok true => some (reg, m_test_iface, popped)
    | .ok false =>
      match msgq_first reg m_test_iface with
      | .ok (some msg) =>
        match msgq_pop reg (AgentControlThread.handle m_test_iface msg) with
        | (reg1, .ok _) =>
          AgentControlThread.drain_loop fuel reg1 (AgentControlThread.handle m_test_iface msg)
            (popped ++ [msg])
        | (_, .error _) => none
      | _ => none

/-- Embeds `AgentControlThread::loop()`: `read()`, the drain loop, `write()`.  The three
final calls on the ECLiPSe thread do not touch the interface and are left out. -/
def AgentControlThread.loop (fuel : Nat)
    (reg : Registry TestInterface_data_t TestInterface.QueuedMessage)
    (m_test_iface : Accessor TestInterface_data_t) :
    Option (Registry TestInterface_data_t TestInterface.QueuedMessage ×
      Accessor TestInterface_data_t × List TestInterface.QueuedMessage) :=
  match read reg m_test_iface with
  | .error _ => none
  | .ok iface =>
    match AgentControlThread.drain_loop fuel reg iface [] with
    | none => none
    | some (reg1, iface1, popped) =>
      match write reg1 iface1 with
      | (reg2, .ok iface2) => some (reg2, iface2, popped)
      | (_, .error _) => none

/-- The summand and addend of the last `CalculateMessage` of a queue, if it has one. -/
def last_CalculateMessage (q : List TestInterface.QueuedMessage) : Option (Int × Int) :=
  (q.filterMap (fun m =>
    match m with
    | .CalculateMessage s a => some (s, a)
    | .Other _ => none)).getLast?

/-- The result that the loop is to write: `summand + addend` of the last
`CalculateMessage` in the queue, or the previous result if there is none. -/
def expected_result (previous : Int) (q : List TestInterface.QueuedMessage) : Int :=
  match last_CalculateMessage q with
  | some (s, a) => int_add s a
  | none => previous

/-- The result after one message was handled: `summand + addend` for a
`CalculateMessage`, the result before for any other message. -/
def result_after (previous : Int) : TestInterface.QueuedMessage → Int
  | .CalculateMessage summand addend => int_add summand addend
  | .Other _ => previous

end fawkes

/-! ## Theorems -/

namespace fawkes

section registry
variable {π μ : Type}

theorem consistent_iff (reg : Registry π μ) :
    reg.Consistent ↔
      (∀ k, reg.blocks k = none → ∀ h ∈ reg.open_accessors, h.id ≠ k) ∧
      (∀ k b, reg.blocks k = some b →
        (reg.writers k).length = (if b.writer_present then 1 else 0) ∧
        (reg.readers k).length = b.reader_count) := by
  constructor
  · intro h
    refine ⟨fun k hk => ?_, fun k b hk => ?_⟩
    · have := h k; rw [hk] at this; exact this
    · have := h k; rw [hk] at this; exact this
  · rintro ⟨h1, h2⟩ k
    cases hk : reg.blocks k with
    | none => exact h1 k hk
    | some b => exact h2 k b hk

theorem consistent_init (capacity : Nat) : (Registry.init π μ capacity).Consistent := by
  intro k
  simp [Registry.init]

theorem filter_id_eq_nil (l : List AccessorRecord) (k : InterfaceId) (p : AccessorRecord → Bool)
    (h : ∀ a ∈ l, a.id ≠ k) : l.filter (fun a => decide (a.id = k) && p a) = [] := by
  rw [List.filter_eq_nil_iff]
  intro a ha
  simp [h a ha]

theorem consistent_locate_or_allocate [Zero π] (reg : Registry π μ) (k : InterfaceId)
    (hc : reg.Consistent) :
    (locate_or_allocate reg k).1.Consistent ∧
    (locate_or_allocate reg k).1.open_accessors = reg.open_accessors ∧
    ∀ b, (locate_or_allocate reg k).2 = .ok b → (locate_or_allocate reg k).1.blocks k = some b := by
  unfold locate_or_allocate
  cases hk : reg.blocks k with
  | some b0 =>
    refine ⟨hc, rfl, ?_⟩
    intro b hb
    simp at hb
    simpa [hb] using hk
  | none =>
    by_cases hf : reg.free_slots = 0
    · simp [hf, hc]
    · simp only [hf, if_false]
      refine ⟨?_, rfl, ?_⟩
      · rw [consistent_iff] at hc ⊢
        obtain ⟨h1, h2⟩ := hc
        refine ⟨fun j hj => ?_, fun j b hj => ?_⟩
        · simp only [Registry.set_block] at hj ⊢
          by_cases hjk : j = k
          · simp [hjk] at hj
          · simp only [hjk, if_false] at hj
            exact h1 j hj
        · simp only [Registry.set_block] at hj
          by_cases hjk : j = k
          · subst hjk
            simp only [if_true, Option.some.injEq] at hj
            subst hj
            have hw := filter_id_eq_nil reg.open_accessors j (fun a => a.writer) (h1 j hk)
            have hr := filter_id_eq_nil reg.open_accessors j (fun a => !a.writer) (h1 j hk)
            simp [Registry.writers, Registry.readers, Registry.set_block, hw, hr]
          · simp only [hjk, if_false] at hj
            exact h2 j b hj
      · intro b hb
        simp at hb
        simp [Registry.set_block, hb]

theorem consistent_hand_out [Zero π] (reg : Registry π μ) (k : InterfaceId) (w : Bool)
    (b0 b : InterfaceBlock π μ) (hc : reg.Consistent) (hk : reg.blocks k = some b0)
    (hw : (if b.writer_present then 1 else 0) =
      (if b0.writer_present then 1 else 0) + (if w then 1 else 0))
    (hr : b.reader_count = b0.reader_count + (if w then 0 else 1)) :
    (hand_out reg k w b).1.Consistent := by
  rw [consistent_iff] at hc ⊢
  obtain ⟨h1, h2⟩ := hc
  refine ⟨fun j hj => ?_, fun j b' hj => ?_⟩
  · simp only [hand_out, Registry.set_block] at hj ⊢
    by_cases hjk : j = k
    · simp [hjk] at hj
    · simp only [hjk, if_false] at hj
      intro h hh
      rw [List.mem_append] at hh
      rcases hh with hh | hh
      · exact h1 j hj h hh
      · simp only [List.mem_singleton] at hh
        subst hh
        simpa [Accessor.record] using fun e => hjk e.symm
  · simp only [hand_out, Registry.set_block] at hj
    by_cases hjk : j = k
    · subst hjk
      simp only [if_true, Option.some.injEq] at hj
      subst hj
      obtain ⟨hw0, hr0⟩ := h2 j b0 hk
      simp only [Registry.writers, Registry.readers] at hw0 hr0
      simp only [Registry.writers, Registry.readers, hand_out, Registry.set_block,
        List.filter_append, List.length_append, hw0, hr0, hw, hr, Accessor.record]
      cases w <;> simp [List.filter]
    · simp only [hjk, if_false] at hj
      obtain ⟨hw0, hr0⟩ := h2 j b' hj
      simp only [Registry.writers, Registry.readers] at hw0 hr0
      have hne : ¬ k = j := fun e => hjk e.symm
      simp only [Registry.writers, Registry.readers, hand_out, Registry.set_block,
        List.filter_append, List.length_append, hw0, hr0, Accessor.record]
      simp [List.filter, hne]

theorem length_filter_erase (l : List AccessorRecord) (h : AccessorRecord)
    (p : AccessorRecord → Bool) (hm : h ∈ l) :
    ((l.erase h).filter p).length = (l.filter p).length - (if p h then 1 else 0) := by
  rw [← List.erase_filter, List.length_erase]
  by_cases hp : p h = true
  · have : h ∈ l.filter p := List.mem_filter.mpr ⟨hm, hp⟩
    simp [this, hp]
  · have : h ∉ l.filter p := fun hh => hp (List.mem_filter.mp hh).2
    simp [this, hp]

theorem consistent_open_for_reading [Zero π] (reg : Registry π μ) (t i : String)
    (hc : reg.Consistent) : (open_for_reading reg t i).1.Consistent := by
  obtain ⟨h1, _, h3⟩ := consistent_locate_or_allocate reg ⟨t, i⟩ hc
  rcases hl : locate_or_allocate reg ⟨t, i⟩ with ⟨reg1, r⟩
  rw [hl] at h1 h3
  cases r with
  | error e => simpa only [open_for_reading, hl] using h1
  | ok b =>
    simp only [open_for_reading, hl]
    exact consistent_hand_out reg1 ⟨t, i⟩ false b _ h1 (h3 b rfl) (by simp) (by simp)

theorem consistent_open_for_writing [Zero π] (reg : Registry π μ) (t i : String)
    (hc : reg.Consistent) : (open_for_writing reg t i).1.Consistent := by
  obtain ⟨h1, _, h3⟩ := consistent_locate_or_allocate reg ⟨t, i⟩ hc
  rcases hl : locate_or_allocate reg ⟨t, i⟩ with ⟨reg1, r⟩
  rw [hl] at h1 h3
  cases r with
  | error e => simpa only [open_for_writing, hl] using h1
  | ok b =>
    by_cases hw : b.writer_present = true
    · simpa only [open_for_writing, hl, hw, if_true] using h1
    · simp only [open_for_writing, hl, hw]
      exact consistent_hand_out reg1 ⟨t, i⟩ true b _ h1 (h3 b rfl) (by simp [hw]) (by simp)

theorem consistent_close (reg : Registry π μ) (a : Accessor π) (hc : reg.Consistent) :
    (close reg a).Consistent := by
  cases hf : reg.open_accessors.find? (fun h => h.serial == a.serial) with
  | none => simpa only [close, hf] using hc
  | some h =>
    have hm : h ∈ reg.open_accessors := List.mem_of_find?_eq_some hf
    rw [consistent_iff] at hc
    obtain ⟨h1, h2⟩ := hc
    cases hb : reg.blocks h.id with
    | none => exact absurd rfl (h1 h.id hb h hm)
    | some b =>
      obtain ⟨hw0, hr0⟩ := h2 h.id b hb
      simp only [Registry.writers, Registry.readers] at hw0 hr0
      -- the counts of the block of `h` after erasing `h`
      have hw1 := length_filter_erase reg.open_accessors h
        (fun x => decide (x.id = h.id) && x.writer) hm
      have hr1 := length_filter_erase reg.open_accessors h
        (fun x => decide (x.id = h.id) && !x.writer) hm
      -- the counts of every other block are untouched
      have hother : ∀ j, j ≠ h.id → ∀ p : AccessorRecord → Bool,
          (reg.open_accessors.erase h).filter (fun x => decide (x.id = j) && p x) =
            reg.open_accessors.filter (fun x => decide (x.id = j) && p x) := by
        intro j hj p
        rw [← List.erase_filter]
        apply List.erase_of_not_mem
        intro hh
        have := (List.mem_filter.mp hh).2
        simp only [Bool.and_eq_true, decide_eq_true_eq] at this
        exact hj this.1.symm
      simp only [decide_True, Bool.true_and] at hw1 hr1
      rw [hw0] at hw1
      rw [hr0] at hr1
      -- the block after the close
      obtain ⟨b1, hb1, hcl⟩ : ∃ b1 : InterfaceBlock π μ,
          (b1 = if h.writer then { b with writer_present := false }
                else { b with reader_count := b.reader_count - 1 }) ∧
          close reg a =
            if b1.reader_count = 0 ∧ b1.writer_present = false then
              { (reg.set_block h.id none) with
                  free_slots := reg.free_slots + 1,
                  open_accessors := reg.open_accessors.erase h }
            else
              { (reg.set_block h.id (some b1)) with
                  open_accessors := reg.open_accessors.erase h } :=
        ⟨_, rfl, by simp only [close, hf, hb]⟩
      have hcnt :
          ((reg.open_accessors.erase h).filter
            (fun x => decide (x.id = h.id) && x.writer)).length =
              (if b1.writer_present then 1 else 0) ∧
          ((reg.open_accessors.erase h).filter
            (fun x => decide (x.id = h.id) && !x.writer)).length = b1.reader_count := by
        rw [hw1, hr1, hb1]
        cases hhw : h.writer <;> cases hbw : b.writer_present <;> simp
      clear hw1 hr1 hb1 hw0 hr0
      rw [hcl, consistent_iff]
      by_cases hz : b1.reader_count = 0 ∧ b1.writer_present = false
      · -- the block is reclaimed
        rw [if_pos hz]
        refine ⟨fun j hj => ?_, fun j b' hj => ?_⟩
        · simp only [Registry.set_block] at hj ⊢
          by_cases hjk : j = h.id
          · subst hjk
            intro x hx hxid
            obtain ⟨hwz, hrz⟩ := hcnt
            rw [hz.2] at hwz
            rw [hz.1] at hrz
            simp only [Bool.false_eq_true, if_false] at hwz
            rw [List.length_eq_zero, List.filter_eq_nil_iff] at hwz hrz
            have a1 := hwz x hx
            have a2 := hrz x hx
            simp only [hxid, decide_True, Bool.true_and] at a1 a2
            cases hxw : x.writer
            · rw [hxw] at a2; simp at a2
            · exact a1 hxw
          · simp only [hjk, if_false] at hj
            intro x hx
            exact h1 j hj x (List.mem_of_mem_erase hx)
        · simp only [Registry.set_block] at hj
          by_cases hjk : j = h.id
          · simp [hjk] at hj
          · simp only [hjk, if_false] at hj
            simp only [Registry.writers, Registry.readers, Registry.set_block, hother j hjk]
            exact h2 j b' hj
      · -- the block stays
        rw [if_neg hz]
        refine ⟨fun j hj => ?_, fun j b' hj => ?_⟩
        · simp only [Registry.set_block] at hj ⊢
          by_cases hjk : j = h.id
          · simp [hjk] at hj
          · simp only [hjk, if_false] at hj
            intro x hx
            exact h1 j hj x (List.mem_of_mem_erase hx)
        · simp only [Registry.set_block] at hj
          by_cases hjk : j = h.id
          · subst hjk
            simp only [if_true, Option.some.injEq] at hj
            subst hj
            simpa only [Registry.writers, Registry.readers, Registry.set_block] using hcnt
          · simp only [hjk, if_false] at hj
            simp only [Registry.writers, Registry.readers, Registry.set_block, hother j hjk]
            exact h2 j b' hj

theorem consistent_step [Zero π] (reg : Registry π μ) (c : Call π) (hc : reg.Consistent) :
    (reg.step c).Consistent := by
  cases c with
  | open_for_reading t i => exact consistent_open_for_reading reg t i hc
  | open_for_writing t i => exact consistent_open_for_writing reg t i hc
  | close a => exact consistent_close reg a hc

theorem consistent_run [Zero π] (calls : List (Call π)) (reg : Registry π μ)
    (hc : reg.Consistent) : (reg.run calls).Consistent := by
  induction calls generalizing reg with
  | nil => exact hc
  | cons c cs ih => exact ih (reg.step c) (consistent_step reg c hc)

theorem writers_length_le_one (reg : Registry π μ) (hc : reg.Consistent) (k : InterfaceId) :
    (reg.writers k).length ≤ 1 := by
  rw [consistent_iff] at hc
  cases hb : reg.blocks k with
  | none =>
    have := filter_id_eq_nil reg.open_accessors k (fun a => a.writer) (hc.1 k hb)
    simp [Registry.writers, this]
  | some b =>
    rw [(hc.2 k b hb).1]
    split <;> simp

theorem open_for_writing_of_writer [Zero π] (reg : Registry π μ) (hc : reg.Consistent)
    (type id : String) (hw : reg.writers ⟨type, id⟩ ≠ []) :
    open_for_writing reg type id = (reg, .error .WriterAlreadyActive) := by
  rw [consistent_iff] at hc
  cases hb : reg.blocks ⟨type, id⟩ with
  | none =>
    exact absurd (filter_id_eq_nil reg.open_accessors _ (fun a => a.writer) (hc.1 _ hb)) hw
  | some b =>
    have hlen := (hc.2 _ b hb).1
    have hwp : b.writer_present = true := by
      cases hbw : b.writer_present
      · rw [hbw] at hlen
        simp only [Bool.false_eq_true, if_false, List.length_eq_zero] at hlen
        exact absurd hlen hw
      · rfl
    simp [open_for_writing, locate_or_allocate, hb, hwp]

/-- C1: from an empty registry, after every sequence of `open_for_writing` /
`open_for_reading` / `close` calls, every interface (type, id) has at most one
outstanding writer accessor; if it has one, a further `open_for_writing` on it
fails with `WriterAlreadyActive`, returns the registry unchanged, and the first
writer's accessor is still outstanding afterwards. -/
theorem single_writer [Zero π] (capacity : Nat) (calls : List (Call π)) (type id : String) :
    ((((Registry.init π μ capacity).run calls).writers ⟨type, id⟩).length ≤ 1) ∧
    (((Registry.init π μ capacity).run calls).writers ⟨type, id⟩ ≠ [] →
      open_for_writing ((Registry.init π μ capacity).run calls) type id =
        ((Registry.init π μ capacity).run calls, .error .WriterAlreadyActive) ∧
      ∀ w ∈ ((Registry.init π μ capacity).run calls).writers ⟨type, id⟩,
        w ∈ (open_for_writing ((Registry.init π μ capacity).run calls) type id).1.writers
          ⟨type, id⟩) := by
  have hc := consistent_run calls (Registry.init π μ capacity) (consistent_init capacity)
  refine ⟨writers_length_le_one _ hc _, fun hw => ?_⟩
  have h := open_for_writing_of_writer _ hc type id hw
  refine ⟨h, fun w hmem => ?_⟩
  rw [h]
  exact hmem

theorem block_of_open_accessor (reg : Registry π μ) (hc : reg.Consistent)
    (h : AccessorRecord) (hm : h ∈ reg.open_accessors) : ∃ b, reg.blocks h.id = some b := by
  rw [consistent_iff] at hc
  cases hb : reg.blocks h.id with
  | none => exact absurd rfl (hc.1 h.id hb h hm)
  | some b => exact ⟨b, rfl⟩

/-- C2: a writer accessor `w` outstanding in a consistent registry sets its local
payload to `x` and calls `write()`, which succeeds; then `open_for_reading` of the
same (type, id) succeeds with a fresh reader accessor `r`, and `read()` on `r`
yields an accessor whose local payload is `x`. -/
theorem write_read_roundtrip [Zero π] (reg : Registry π μ) (w : Accessor π) (x : π)
    (hc : reg.Consistent) (hm : w.record ∈ reg.open_accessors) (hw : w.writer = true) :
    (∃ w1, (write reg (w.set_data x)).2 = .ok w1) ∧
    ∃ r r1 : Accessor π,
      (open_for_reading (write reg (w.set_data x)).1 w.id.type_name w.id.instance_id).2
        = .ok r ∧
      r.id = w.id ∧ r.writer = false ∧
      read (open_for_reading (write reg (w.set_data x)).1 w.id.type_name w.id.instance_id).1 r
        = .ok r1 ∧
      r1.data = x := by
  obtain ⟨b, hb⟩ := block_of_open_accessor reg hc w.record hm
  have hb1 : reg.blocks w.id = some b := hb
  have hid : (⟨w.id.type_name, w.id.instance_id⟩ : InterfaceId) = w.id := rfl
  have hwrite : write reg (w.set_data x) =
      (reg.set_block w.id (some { b with payload := x, revision := b.revision + 1 }),
        .ok { w.set_data x with last_revision := b.revision + 1 }) := by
    simp only [write, Accessor.set_data, hw, hb1]
    rfl
  rw [hwrite]
  refine ⟨⟨_, rfl⟩, ?_⟩
  have hopen : open_for_reading
      (reg.set_block w.id (some { b with payload := x, revision := b.revision + 1 }))
      w.id.type_name w.id.instance_id =
      hand_out (reg.set_block w.id (some { b with payload := x, revision := b.revision + 1 }))
        w.id false
        { payload := x, revision := b.revision + 1, writer_present := b.writer_present,
          reader_count := b.reader_count + 1, msgq := b.msgq } := by
    simp only [open_for_reading, locate_or_allocate, hid, Registry.set_block, if_true]
  rw [hopen]
  refine ⟨_, (⟨reg.next_serial, w.id, false, x, b.revision + 1⟩ : Accessor π),
    rfl, rfl, rfl, ?_, rfl⟩
  simp only [read, hand_out, Registry.set_block, if_true]

end registry

/-- Witness of C1: after a writer and a reader were opened on (T, x) the writer
is outstanding, and a second `open_for_writing` on (T, x) is refused. -/
theorem single_writer_witness :
    ((Registry.init Nat Nat 4).run
        [.open_for_writing "T" "x", .open_for_reading "T" "x"]).writers ⟨"T", "x"⟩ =
      [{ serial := 1, id := ⟨"T", "x"⟩, writer := true }] ∧
    (open_for_writing ((Registry.init Nat Nat 4).run
        [.open_for_writing "T" "x", .open_for_reading "T" "x"]) "T" "x").2 =
      .error .WriterAlreadyActive := by
  have hw : ((Registry.init Nat Nat 4).run
        [.open_for_writing "T" "x", .open_for_reading "T" "x"]).writers ⟨"T", "x"⟩ =
      [{ serial := 1, id := ⟨"T", "x"⟩, writer := true }] := by
    decide
  refine ⟨hw, ?_⟩
  rw [((single_writer 4 [.open_for_writing "T" "x", .open_for_reading "T" "x"] "T" "x").2
    (by rw [hw]; exact List.cons_ne_nil _ _)).1]

/-- Witness of C2: the writer opened on (T, x) publishes 42; a fresh reader reads 42. -/
theorem write_read_roundtrip_witness :
    (∃ w1, (write (open_for_writing (Registry.init Nat Nat 4) "T" "x").1
        (Accessor.set_data ⟨1, ⟨"T", "x"⟩, true, 0, 0⟩ 42)).2 = .ok w1) ∧
    ∃ r r1 : Accessor Nat,
      (open_for_reading (write (open_for_writing (Registry.init Nat Nat 4) "T" "x").1
        (Accessor.set_data ⟨1, ⟨"T", "x"⟩, true, 0, 0⟩ 42)).1 "T" "x").2 = .ok r ∧
      r.id = ⟨"T", "x"⟩ ∧ r.writer = false ∧
      read (open_for_reading (write (open_for_writing (Registry.init Nat Nat 4) "T" "x").1
        (Accessor.set_data ⟨1, ⟨"T", "x"⟩, true, 0, 0⟩ 42)).1 "T" "x").1 r = .ok r1 ∧
      r1.data = 42 :=
  write_read_roundtrip (open_for_writing (Registry.init Nat Nat 4) "T" "x").1
    ⟨1, ⟨"T", "x"⟩, true, 0, 0⟩ 42
    (consistent_open_for_writing _ "T" "x" (consistent_init 4)) (by decide) rfl

section msgq
variable {π μ : Type}

theorem enqueue_all_ok (accept : String → μ → Bool) (a : Accessor π) (ms : List μ)
    (hv : ∀ m ∈ ms, accept a.id.type_name m = true) :
    ∀ (reg : Registry π μ) (b : InterfaceBlock π μ), reg.blocks a.id = some b →
      ∃ reg1, enqueue_all accept reg a ms = (reg1, .ok ()) ∧
        reg1.blocks a.id = some { b with msgq := b.msgq ++ ms } := by
  induction ms with
  | nil =>
    intro reg b hb
    exact ⟨reg, rfl, by simpa using hb⟩
  | cons m ms ih =>
    intro reg b hb
    have hm : accept a.id.type_name m = true := hv m (List.mem_cons_self _ _)
    obtain ⟨reg1, h1, h2⟩ := ih (fun x hx => hv x (List.mem_cons_of_mem _ hx))
      (reg.set_block a.id (some { b with msgq := b.msgq ++ [m] }))
      { b with msgq := b.msgq ++ [m] } (by simp [Registry.set_block])
    refine ⟨reg1, ?_, ?_⟩
    · simp only [enqueue_all, msgq_enqueue, hm, hb]
      simpa using h1
    · simpa using h2

theorem drain_all (w : Accessor π) (hw : w.writer = true) (q : List μ) :
    ∀ (fuel : Nat) (reg : Registry π μ) (b : InterfaceBlock π μ) (taken : List μ),
      reg.blocks w.id = some b → b.msgq = q → q.length < fuel →
      ∃ reg2, drain fuel reg w taken = some (reg2, taken ++ q) ∧
        reg2.blocks w.id = some { b with msgq := [] } := by
  induction q with
  | nil =>
    intro fuel reg b taken hb hq hf
    obtain ⟨f, rfl⟩ : ∃ f, fuel = f + 1 := ⟨fuel - 1, by omega⟩
    refine ⟨reg, ?_, ?_⟩
    · simp [drain, msgq_empty, hw, hb, hq]
    · rw [hb, ← hq]
  | cons m q ih =>
    intro fuel reg b taken hb hq hf
    obtain ⟨f, rfl⟩ : ∃ f, fuel = f + 1 := ⟨fuel - 1, by omega⟩
    simp only [List.length_cons] at hf
    obtain ⟨reg2, h1, h2⟩ := ih f
      (reg.set_block w.id (some { b with msgq := q }))
      { b with msgq := q } (taken ++ [m]) (by simp [Registry.set_block]) rfl (by omega)
    refine ⟨reg2, ?_, ?_⟩
    · simp only [drain, msgq_empty, msgq_first, msgq_pop, hw, hb, hq]
      simpa using h1
    · simpa using h2

/-- C3: on an interface whose block is live, the messages `ms` are enqueued one
after the other through an accessor `a` (all of them accepted by the interface's
accept predicate); every enqueue succeeds, and the writer's drain loop with
`msgq_empty` / `msgq_first` / `msgq_pop` then terminates (any fuel above the queue
length suffices) having taken the messages that were queued before followed by
exactly `ms`, each once, in enqueue order, and leaves the queue empty.  With an
initially empty queue the drained sequence is exactly `ms`. -/
theorem msgq_fifo (accept : String → μ → Bool) (reg : Registry π μ) (a w : Accessor π)
    (b : InterfaceBlock π μ) (ms : List μ)
    (hb : reg.blocks w.id = some b) (ha : a.id = w.id) (hw : w.writer = true)
    (hv : ∀ m ∈ ms, accept a.id.type_name m = true) :
    (enqueue_all accept reg a ms).2 = .ok () ∧
    ∀ fuel, (b.msgq ++ ms).length < fuel →
      ∃ reg2, drain fuel (enqueue_all accept reg a ms).1 w [] = some (reg2, b.msgq ++ ms) ∧
        msgq_empty reg2 w = .ok true := by
  obtain ⟨reg1, h1, h2⟩ := enqueue_all_ok accept a ms hv reg b (ha ▸ hb)
  rw [h1]
  refine ⟨rfl, fun fuel hf => ?_⟩
  rw [ha] at h2
  obtain ⟨reg2, h3, h4⟩ := drain_all w hw (b.msgq ++ ms) fuel reg1 _ [] h2 rfl hf
  refine ⟨reg2, by simpa using h3, ?_⟩
  simp [msgq_empty, hw, h4]

end msgq

/-- Witness of C3: a reader enqueues 7, 8, 9 on (T, x); the writer drains 7, 8, 9. -/
theorem msgq_fifo_witness :
    (enqueue_all (fun _ _ => true)
      (open_for_reading (open_for_writing (Registry.init Nat Nat 4) "T" "x").1 "T" "x").1
      ⟨2, ⟨"T", "x"⟩, false, 0, 0⟩ [7, 8, 9]).2 = .ok () ∧
    ∀ fuel, ([] ++ [7, 8, 9]).length < fuel →
      ∃ reg2, drain fuel (enqueue_all (fun _ _ => true)
        (open_for_reading (open_for_writing (Registry.init Nat Nat 4) "T" "x").1 "T" "x").1
        ⟨2, ⟨"T", "x"⟩, false, 0, 0⟩ [7, 8, 9]).1 ⟨1, ⟨"T", "x"⟩, true, 0, 0⟩ []
          = some (reg2, [] ++ [7, 8, 9]) ∧
        msgq_empty reg2 ⟨1, ⟨"T", "x"⟩, true, 0, 0⟩ = .ok true :=
  msgq_fifo (fun _ _ => true)
    (open_for_reading (open_for_writing (Registry.init Nat Nat 4) "T" "x").1 "T" "x").1
    ⟨2, ⟨"T", "x"⟩, false, 0, 0⟩ ⟨1, ⟨"T", "x"⟩, true, 0, 0⟩
    ⟨0, 0, true, 1, []⟩ [7, 8, 9] rfl rfl rfl (fun _ _ => rfl)

section skiller

/-- C4: `SkillerInterface::message_valid(m)` returns true if and only if `m`
points to a message whose concrete class is one of the six `SkillerInterface`
message classes; a message of any other class (and a NULL pointer) is rejected. -/
theorem message_valid_iff (message : Option Message) :
    SkillerInterface.message_valid message = true ↔
      ∃ m, message = some m ∧
        m.dyn_class ∈
          [ SkillerInterface.ExecSkillMessage.cls,
            SkillerInterface.ExecSkillContinuousMessage.cls,
            SkillerInterface.RestartInterpreterMessage.cls,
            SkillerInterface.StopExecMessage.cls,
            SkillerInterface.AcquireControlMessage.cls,
            SkillerInterface.ReleaseControlMessage.cls ] := by
  cases message with
  | none => simp [SkillerInterface.message_valid, dynamic_cast]
  | some m =>
    simp only [SkillerInterface.message_valid, dynamic_cast, Option.some.injEq, exists_eq_left',
      List.mem_cons, List.mem_singleton, List.not_mem_nil, or_false]
    by_cases h0 : m.dyn_class = SkillerInterface.ExecSkillMessage.cls
    · simp [h0]
    by_cases h1 : m.dyn_class = SkillerInterface.ExecSkillContinuousMessage.cls
    · simp [h1]
    by_cases h2 : m.dyn_class = SkillerInterface.RestartInterpreterMessage.cls
    · simp [h2]
    by_cases h3 : m.dyn_class = SkillerInterface.StopExecMessage.cls
    · simp [h3]
    by_cases h4 : m.dyn_class = SkillerInterface.AcquireControlMessage.cls
    · simp [h4]
    by_cases h5 : m.dyn_class = SkillerInterface.ReleaseControlMessage.cls
    · simp [h5]
    simp [h0, h1, h2, h3, h4, h5]

theorem char_toNat_sub_eq_zero (c d : Char) : (c.toNat : Int) - (d.toNat : Int) = 0 ↔ c = d := by
  constructor
  · intro h
    have : c.toNat = d.toNat := by omega
    exact Char.ext (UInt32.eq_of_val_eq (Fin.eq_of_val_eq this))
  · intro h
    rw [h]; omega

theorem strncmp_eq_zero_iff (a : List Char) :
    ∀ (b : List Char) (n : Nat), NUL ∉ a → NUL ∉ b → a.length < n →
      (strncmp a b n = 0 ↔ a = b) := by
  induction a with
  | nil =>
    intro b n _ hb hn
    obtain ⟨k, rfl⟩ : ∃ k, n = k + 1 := ⟨n - 1, by simp at hn; omega⟩
    cases b with
    | nil => simp [strncmp]
    | cons y ys =>
      have hy : NUL ≠ y := fun e => hb (e ▸ List.mem_cons_self _ _)
      simp [strncmp, hy, char_toNat_sub_eq_zero]
  | cons x xs ih =>
    intro b n ha hb hn
    obtain ⟨k, rfl⟩ : ∃ k, n = k + 1 := ⟨n - 1, by simp at hn; omega⟩
    have hx : x ≠ NUL := fun e => ha (e ▸ List.mem_cons_self _ _)
    have hxs : NUL ∉ xs := fun h => ha (List.mem_cons_of_mem _ h)
    simp only [List.length_cons, Nat.add_lt_add_iff_right] at hn
    cases b with
    | nil => simp [strncmp, hx, char_toNat_sub_eq_zero]
    | cons y ys =>
      have hys : NUL ∉ ys := fun h => hb (List.mem_cons_of_mem _ h)
      by_cases hxy : x = y
      · subst hxy
        simp [strncmp, hx, ih ys k hxs hys hn]
      · simp [strncmp, hxy, char_toNat_sub_eq_zero]

theorem strncmp_name (name : String) (N : Nat) (t : List Char) (hnul : NUL ∉ name.toList)
    (hlen : name.length < N) (ht : NUL ∉ t) :
    strncmp name.toList t N = 0 ↔ t = name.toList := by
  rw [strncmp_eq_zero_iff name.toList t N hnul ht hlen]
  exact eq_comm

theorem create_message_cases (N : Nat) (t : List Char)
    (hN : ∀ name ∈ SkillerInterface.message_type_names, name.length < N) (ht : NUL ∉ t) :
    SkillerInterface.create_message N t =
      if t = "ExecSkillMessage".toList then .ok SkillerInterface.ExecSkillMessage.ctor
      else if t = "ExecSkillContinuousMessage".toList then
        .ok SkillerInterface.ExecSkillContinuousMessage.ctor
      else if t = "RestartInterpreterMessage".toList then
        .ok SkillerInterface.RestartInterpreterMessage.ctor
      else if t = "StopExecMessage".toList then .ok SkillerInterface.StopExecMessage.ctor
      else if t = "AcquireControlMessage".toList then
        .ok SkillerInterface.AcquireControlMessage.ctor
      else if t = "ReleaseControlMessage".toList then
        .ok SkillerInterface.ReleaseControlMessage.ctor
      else .error .UnknownTypeException := by
  have h0 := strncmp_name "ExecSkillMessage" N t (by decide)
    (hN _ (by simp [SkillerInterface.message_type_names])) ht
  have h1 := strncmp_name "ExecSkillContinuousMessage" N t (by decide)
    (hN _ (by simp [SkillerInterface.message_type_names])) ht
  have h2 := strncmp_name "RestartInterpreterMessage" N t (by decide)
    (hN _ (by simp [SkillerInterface.message_type_names])) ht
  have h3 := strncmp_name "StopExecMessage" N t (by decide)
    (hN _ (by simp [SkillerInterface.message_type_names])) ht
  have h4 := strncmp_name "AcquireControlMessage" N t (by decide)
    (hN _ (by simp [SkillerInterface.message_type_names])) ht
  have h5 := strncmp_name "ReleaseControlMessage" N t (by decide)
    (hN _ (by simp [SkillerInterface.message_type_names])) ht
  simp only [SkillerInterface.create_message, h0, h1, h2, h3, h4, h5]

/-- C5: let the six message type names be shorter than
`__INTERFACE_MESSAGE_TYPE_SIZE`.  For every C string `t`,
`SkillerInterface::create_message(t)` returns a new message whose type name is
`t` when `t` is one of the six `SkillerInterface` message type names, and throws
`UnknownTypeException`, returning no message, for every other `t`. -/
theorem create_message_spec (__INTERFACE_MESSAGE_TYPE_SIZE : Nat) (t : List Char)
    (hN : ∀ name ∈ SkillerInterface.message_type_names,
      name.length < __INTERFACE_MESSAGE_TYPE_SIZE)
    (ht : NUL ∉ t) :
    (t ∈ SkillerInterface.message_type_names.map String.toList →
      ∃ m, SkillerInterface.create_message __INTERFACE_MESSAGE_TYPE_SIZE t = .ok m ∧
        m.type = t) ∧
    (t ∉ SkillerInterface.message_type_names.map String.toList →
      SkillerInterface.create_message __INTERFACE_MESSAGE_TYPE_SIZE t =
        .error .UnknownTypeException) := by
  rw [create_message_cases _ t hN ht]
  simp only [SkillerInterface.message_type_names, List.map_cons, List.map_nil, List.mem_cons,
    List.mem_singleton, List.not_mem_nil, or_false, not_or]
  constructor
  · intro h
    rcases h with h | h | h | h | h | h <;> subst h
    · exact ⟨SkillerInterface.ExecSkillMessage.ctor, rfl, rfl⟩
    · exact ⟨SkillerInterface.ExecSkillContinuousMessage.ctor, rfl, rfl⟩
    · exact ⟨SkillerInterface.RestartInterpreterMessage.ctor, rfl, rfl⟩
    · exact ⟨SkillerInterface.StopExecMessage.ctor, rfl, rfl⟩
    · exact ⟨SkillerInterface.AcquireControlMessage.ctor, rfl, rfl⟩
    · exact ⟨SkillerInterface.ReleaseControlMessage.ctor, rfl, rfl⟩
  · rintro ⟨h0, h1, h2, h3, h4, h5⟩
    simp only [h0, h1, h2, h3, h4, h5, if_false]

/-- Witness of C5, with a type size of 32: `StopExecMessage` yields a message of
that type name, `CalculateMessage` is refused. -/
theorem create_message_spec_witness :
    (∃ m, SkillerInterface.create_message 32 "StopExecMessage".toList = .ok m ∧
      m.type = "StopExecMessage".toList) ∧
    SkillerInterface.create_message 32 "CalculateMessage".toList =
      .error .UnknownTypeException :=
  ⟨(create_message_spec 32 "StopExecMessage".toList (by decide) (by decide)).1 (by decide),
   (create_message_spec 32 "CalculateMessage".toList (by decide) (by decide)).2 (by decide)⟩

theorem create_message_valid (N : Nat) (t : List Char) (m : Message)
    (h : SkillerInterface.create_message N t = .ok m) :
    SkillerInterface.message_valid (some m) = true := by
  unfold SkillerInterface.create_message at h
  split at h
  · injection h with h; subst h; rfl
  split at h
  · injection h with h; subst h; rfl
  split at h
  · injection h with h; subst h; rfl
  split at h
  · injection h with h; subst h; rfl
  split at h
  · injection h with h; subst h; rfl
  split at h
  · injection h with h; subst h; rfl
  · cases h

/-- C6: let the six message type names be shorter than
`__INTERFACE_MESSAGE_TYPE_SIZE`.  The type names registered with
`add_messageinfo` by the constructor (whatever the block that `malloc` hands it)
are exactly the C strings for which `create_message` succeeds, and every message
that `create_message` returns is accepted by `message_valid`. -/
theorem message_tables_agree (__INTERFACE_MESSAGE_TYPE_SIZE : Nat)
    (uninit : SkillerInterface_data_t)
    (hN : ∀ name ∈ SkillerInterface.message_type_names,
      name.length < __INTERFACE_MESSAGE_TYPE_SIZE) :
    (∀ t : List Char, NUL ∉ t →
      (t ∈ (SkillerInterface.ctor uninit).messageinfo.map String.toList ↔
        ∃ m, SkillerInterface.create_message __INTERFACE_MESSAGE_TYPE_SIZE t = .ok m)) ∧
    (∀ (t : List Char) (m : Message),
      SkillerInterface.create_message __INTERFACE_MESSAGE_TYPE_SIZE t = .ok m →
        SkillerInterface.message_valid (some m) = true) := by
  refine ⟨fun t ht => ?_, fun t m h => create_message_valid _ t m h⟩
  have hinfo : (SkillerInterface.ctor uninit).messageinfo.map String.toList =
      [ "ExecSkillMessage".toList, "ExecSkillContinuousMessage".toList,
        "RestartInterpreterMessage".toList, "StopExecMessage".toList,
        "AcquireControlMessage".toList, "ReleaseControlMessage".toList ] := rfl
  rw [hinfo, create_message_cases _ t hN ht]
  simp only [List.mem_cons, List.mem_singleton, List.not_mem_nil, or_false]
  by_cases h0 : t = "ExecSkillMessage".toList
  · simp only [h0, if_true, true_or, true_iff]; exact ⟨_, rfl⟩
  by_cases h1 : t = "ExecSkillContinuousMessage".toList
  · simp only [h0, h1, if_true, if_false, true_or, or_true, true_iff]; exact ⟨_, rfl⟩
  by_cases h2 : t = "RestartInterpreterMessage".toList
  · simp only [h0, h1, h2, if_true, if_false, true_or, or_true, true_iff]; exact ⟨_, rfl⟩
  by_cases h3 : t = "StopExecMessage".toList
  · simp only [h0, h1, h2, h3, if_true, if_false, true_or, or_true, true_iff]; exact ⟨_, rfl⟩
  by_cases h4 : t = "AcquireControlMessage".toList
  · simp only [h0, h1, h2, h3, h4, if_true, if_false, true_or, or_true, true_iff]
    exact ⟨_, rfl⟩
  by_cases h5 : t = "ReleaseControlMessage".toList
  · simp only [h0, h1, h2, h3, h4, h5, if_true, if_false, or_true, true_iff]
    exact ⟨_, rfl⟩
  simp only [h0, h1, h2, h3, h4, h5, if_false, or_self, false_iff, not_exists]
  intro m hm
  cases hm

/-- Witness of C6, with a type size of 32 and an interface constructed on a
block of arbitrary content: `AcquireControlMessage` is registered, is created,
and the created message is valid. -/
theorem message_tables_agree_witness :
    ("AcquireControlMessage".toList ∈
        (SkillerInterface.ctor ⟨['x'], ['y'], 7, 3, true⟩).messageinfo.map String.toList ↔
      ∃ m, SkillerInterface.create_message 32 "AcquireControlMessage".toList = .ok m) ∧
    SkillerInterface.message_valid (some SkillerInterface.AcquireControlMessage.ctor) = true :=
  ⟨(message_tables_agree 32 ⟨['x'], ['y'], 7, 3, true⟩ (by decide)).1
      "AcquireControlMessage".toList (by decide),
   (message_tables_agree 32 ⟨['x'], ['y'], 7, 3, true⟩ (by decide)).2
      "AcquireControlMessage".toList SkillerInterface.AcquireControlMessage.ctor rfl⟩

/-- C7: `SkillerInterface::copy_values(other)` throws `TypeMismatchException`
if and only if `other` is not a `SkillerInterface`; when it throws, the receiver
(its payload included) is unchanged; when it does not throw, it completes
normally and the five payload fields of the receiver (skill_string, error,
exclusive_controller, status, continuous) equal those of `other`; `other` is
unchanged in both cases. -/
theorem copy_values_spec (self : SkillerInterface) (other : Interface) :
    ((self.copy_values other).2 = .error .TypeMismatchException ↔
      ∀ oi : SkillerInterface, other ≠ .Skiller oi) ∧
    ((self.copy_values other).2 = .error .TypeMismatchException →
      (self.copy_values other).1.1 = self) ∧
    (∀ oi : SkillerInterface, other = .Skiller oi →
      (self.copy_values other).2 = .ok () ∧
      (self.copy_values other).1.1.skill_string = oi.skill_string ∧
      (self.copy_values other).1.1.error = oi.error ∧
      (self.copy_values other).1.1.exclusive_controller = oi.exclusive_controller ∧
      (self.copy_values other).1.1.status = oi.status ∧
      (self.copy_values other).1.1.is_continuous = oi.is_continuous) ∧
    (self.copy_values other).1.2 = other := by
  cases other with
  | Skiller i =>
    refine ⟨?_, ?_, ?_, rfl⟩
    · simp [SkillerInterface.copy_values, dynamic_cast_SkillerInterface]
    · intro h
      simp [SkillerInterface.copy_values, dynamic_cast_SkillerInterface] at h
    · intro oi h
      injection h with h
      subst h
      exact ⟨rfl, rfl, rfl, rfl, rfl, rfl⟩
  | Other ty d =>
    refine ⟨?_, ?_, ?_, rfl⟩
    · simp [SkillerInterface.copy_values, dynamic_cast_SkillerInterface]
    · intro _
      rfl
    · intro oi h
      cases h

/-- Witness of C7: on an interface constructed on a block of arbitrary content,
copying from a `SkillerInterface` whose status is 2 succeeds and sets the status
to 2; copying from a `FacerInterface` throws and leaves the receiver as it was. -/
theorem copy_values_spec_witness :
    (((SkillerInterface.ctor ⟨['x'], ['y'], 7, 3, true⟩).copy_values
        (.Skiller ((SkillerInterface.ctor ⟨['x'], ['y'], 7, 3, true⟩).set_status 2))).2
        = .ok () ∧
      ((SkillerInterface.ctor ⟨['x'], ['y'], 7, 3, true⟩).copy_values
        (.Skiller ((SkillerInterface.ctor ⟨['x'], ['y'], 7, 3, true⟩).set_status 2))).1.1.status
        = 2) ∧
    ((SkillerInterface.ctor ⟨['x'], ['y'], 7, 3, true⟩).copy_values
        (.Other "FacerInterface" [])).1.1 =
      SkillerInterface.ctor ⟨['x'], ['y'], 7, 3, true⟩ :=
  ⟨⟨((copy_values_spec (SkillerInterface.ctor ⟨['x'], ['y'], 7, 3, true⟩)
        (.Skiller ((SkillerInterface.ctor ⟨['x'], ['y'], 7, 3, true⟩).set_status 2))).2.2.1
          _ rfl).1,
    ((copy_values_spec (SkillerInterface.ctor ⟨['x'], ['y'], 7, 3, true⟩)
        (.Skiller ((SkillerInterface.ctor ⟨['x'], ['y'], 7, 3, true⟩).set_status 2))).2.2.1
          _ rfl).2.2.2.2.1⟩,
   (copy_values_spec (SkillerInterface.ctor ⟨['x'], ['y'], 7, 3, true⟩)
      (.Other "FacerInterface" [])).2.1 rfl⟩

/-- C8: a freshly constructed `SkillerInterface` has an all-zero payload, whatever
the content `uninit` of the block that `malloc` returned: both character buffers
hold only NUL bytes (1024 and 128 of them), so `skill_string()` and `error()` are
empty strings, `exclusive_controller()` is 0, `is_continuous()` is false and
`status()` is the enum value 0. -/
theorem ctor_payload_zero (uninit : SkillerInterface_data_t) :
    (SkillerInterface.ctor uninit).data = SkillerInterface_data_t.zero ∧
    (SkillerInterface.ctor uninit).skill_string = List.replicate 1024 NUL ∧
    (SkillerInterface.ctor uninit).error = List.replicate 128 NUL ∧
    c_str (SkillerInterface.ctor uninit).skill_string = [] ∧
    c_str (SkillerInterface.ctor uninit).error = [] ∧
    (SkillerInterface.ctor uninit).exclusive_controller = 0 ∧
    (SkillerInterface.ctor uninit).is_continuous = false ∧
    (SkillerInterface.ctor uninit).status = 0 :=
  ⟨rfl, rfl, rfl, rfl, rfl, rfl, rfl, rfl⟩

/-- C9: a freshly constructed `SkillerInterface` (whatever the content `uninit` of
the block that `malloc` returned) has a field-reflection table of
exactly five entries, in this order: (skill_string, string, 1024),
(error, string, 128), (exclusive_controller, uint, 1),
(status, enum SkillStatusEnum, 1), (continuous, bool, 1); and the length of each
entry is the value returned by the matching `maxlenof_<field>()`. -/
theorem ctor_fieldinfo (uninit : SkillerInterface_data_t) :
    (SkillerInterface.ctor uninit).fieldinfo =
      [ ⟨.IFT_STRING, "skill_string", 1024, none⟩,
        ⟨.IFT_STRING, "error", 128, none⟩,
        ⟨.IFT_UINT, "exclusive_controller", 1, none⟩,
        ⟨.IFT_ENUM, "status", 1, some "SkillStatusEnum"⟩,
        ⟨.IFT_BOOL, "continuous", 1, none⟩ ] ∧
    (SkillerInterface.ctor uninit).fieldinfo.map (fun f => (f.name, f.length)) =
      [ ("skill_string", (SkillerInterface.ctor uninit).maxlenof_skill_string),
        ("error", (SkillerInterface.ctor uninit).maxlenof_error),
        ("exclusive_controller", (SkillerInterface.ctor uninit).maxlenof_exclusive_controller),
        ("status", (SkillerInterface.ctor uninit).maxlenof_status),
        ("continuous", (SkillerInterface.ctor uninit).maxlenof_continuous) ] :=
  ⟨rfl, rfl⟩

/-- C10 fails on the code: the default constructor and the initial-value
constructor of `ExecSkillMessage` and `ExecSkillContinuousMessage` register the
one entry (skill_string, string, 1024), but the copy constructor used by
`clone()` registers none, so the field-reflection table of every clone is
empty. -/
theorem clone_fieldinfo_empty :
    SkillerInterface.ExecSkillMessage.ctor.fieldinfo =
      [⟨.IFT_STRING, "skill_string", 1024, none⟩] ∧
    (∀ ini, (SkillerInterface.ExecSkillMessage.ctor_ini ini).fieldinfo =
      [⟨.IFT_STRING, "skill_string", 1024, none⟩]) ∧
    SkillerInterface.ExecSkillContinuousMessage.ctor.fieldinfo =
      [⟨.IFT_STRING, "skill_string", 1024, none⟩] ∧
    (∀ ini, (SkillerInterface.ExecSkillContinuousMessage.ctor_ini ini).fieldinfo =
      [⟨.IFT_STRING, "skill_string", 1024, none⟩]) ∧
    (∀ m, (SkillerInterface.ExecSkillMessage.clone m).fieldinfo = []) ∧
    (∀ m, (SkillerInterface.ExecSkillContinuousMessage.clone m).fieldinfo = []) ∧
    (SkillerInterface.ExecSkillMessage.clone
      SkillerInterface.ExecSkillMessage.ctor).fieldinfo ≠
        [⟨.IFT_STRING, "skill_string", 1024, none⟩] :=
  ⟨rfl, fun _ => rfl, rfl, fun _ => rfl, fun _ => rfl, fun _ => rfl, by decide⟩

end skiller

section cstrings

theorem memset_zero_length (n : Nat) : (memset_zero n).length = n := by
  unfold memset_zero
  exact List.length_replicate n NUL

theorem c_str_of_no_nul (s : List Char) (h : NUL ∉ s) : c_str s = s := by
  unfold c_str
  rw [List.takeWhile_eq_self_iff]
  intro c hc
  have : c ≠ NUL := fun e => h (e ▸ hc)
  simpa using this

theorem c_str_append_nul (s rest : List Char) (h : NUL ∉ s) : c_str (s ++ NUL :: rest) = s := by
  induction s with
  | nil => simp [c_str]
  | cons x xs ih =>
    have hx : x ≠ NUL := fun e => h (e ▸ List.mem_cons_self _ _)
    have hxs : NUL ∉ xs := fun hh => h (List.mem_cons_of_mem _ hh)
    have := ih hxs
    simp only [c_str] at this ⊢
    simp [List.takeWhile_cons, hx, this]

theorem strncpy_length (dest src : List Char) (n : Nat) (hn : n ≤ dest.length) :
    (strncpy dest src n).length = dest.length := by
  simp only [strncpy, List.length_append, List.length_take, List.length_replicate,
    List.length_drop]
  omega

theorem strncpy_short (dest s : List Char) (n : Nat) (hs : NUL ∉ s) (hl : s.length < n) :
    strncpy dest s n = s ++ List.replicate (n - s.length) NUL ++ dest.drop n := by
  unfold strncpy
  rw [c_str_of_no_nul s hs, List.take_append_eq_append_take,
    List.take_of_length_le (by omega), List.take_replicate]
  congr 3
  omega

theorem strncpy_long (dest s : List Char) (n : Nat) (hs : NUL ∉ s) (hl : n ≤ s.length) :
    strncpy dest s n = s.take n ++ dest.drop n := by
  unfold strncpy
  rw [c_str_of_no_nul s hs, List.take_append_of_le_length hl]

theorem c_str_strncpy_short (dest s : List Char) (n : Nat) (hs : NUL ∉ s)
    (hl : s.length < n) : c_str (strncpy dest s n) = s := by
  rw [strncpy_short dest s n hs hl]
  obtain ⟨k, hk⟩ : ∃ k, n - s.length = k + 1 := ⟨n - s.length - 1, by omega⟩
  rw [hk, List.replicate_succ, List.append_assoc, List.cons_append]
  exact c_str_append_nul s _ hs

end cstrings

section clone

theorem memcpy_full (dest src : List Char) (n : Nat) (hd : dest.length = n)
    (hs : src.length = n) : memcpy dest src n = src := by
  unfold memcpy
  rw [List.take_of_length_le (by omega), List.drop_of_length_le (by omega), List.append_nil]

/-- C11: let `m` be an `ExecSkillMessage` whose data block of `data_size` bytes
is allocated on the heap.  `m.clone()` is a message with a data block of its
own (a different address), of the same type name `ExecSkillMessage` and class,
whose payload is byte-for-byte that of `m`; cloning leaves the payload of `m`
as it was, and so does a later `set_skill_string` on the clone, which changes
the skill string of the clone only. -/
theorem clone_independent (h : Heap) (uninit : Nat → Char) (m : MessageObj) (d s : List Char)
    (hty : m.type = "ExecSkillMessage".toList)
    (hm : h.mem m.data_ptr = some d) (hsz : d.length = m.data_size)
    (halloc : m.data_ptr < h.brk) :
    (SkillerInterface.ExecSkillMessage.clone_at h uninit m).2.data_ptr ≠ m.data_ptr ∧
    (SkillerInterface.ExecSkillMessage.clone_at h uninit m).2.type = m.type ∧
    (SkillerInterface.ExecSkillMessage.clone_at h uninit m).2.dyn_class =
      SkillerInterface.ExecSkillMessage.cls ∧
    (SkillerInterface.ExecSkillMessage.clone_at h uninit m).2.data_size = m.data_size ∧
    SkillerInterface.ExecSkillMessage.skill_string_at
        (SkillerInterface.ExecSkillMessage.clone_at h uninit m).1
        (SkillerInterface.ExecSkillMessage.clone_at h uninit m).2 =
      SkillerInterface.ExecSkillMessage.skill_string_at h m ∧
    SkillerInterface.ExecSkillMessage.skill_string_at
        (SkillerInterface.ExecSkillMessage.clone_at h uninit m).1 m =
      SkillerInterface.ExecSkillMessage.skill_string_at h m ∧
    SkillerInterface.ExecSkillMessage.skill_string_at
        (SkillerInterface.ExecSkillMessage.set_skill_string_at
          (SkillerInterface.ExecSkillMessage.clone_at h uninit m).1
          (SkillerInterface.ExecSkillMessage.clone_at h uninit m).2 s) m =
      SkillerInterface.ExecSkillMessage.skill_string_at h m ∧
    SkillerInterface.ExecSkillMessage.skill_string_at
        (SkillerInterface.ExecSkillMessage.set_skill_string_at
          (SkillerInterface.ExecSkillMessage.clone_at h uninit m).1
          (SkillerInterface.ExecSkillMessage.clone_at h uninit m).2 s)
        (SkillerInterface.ExecSkillMessage.clone_at h uninit m).2 =
      strncpy (SkillerInterface.ExecSkillMessage.skill_string_at h m) s 1024 := by
  have hne : m.data_ptr ≠ h.brk := by omega
  have hcopy : memcpy ((List.range m.data_size).map uninit) d m.data_size = d :=
    memcpy_full _ _ _ (by simp) hsz
  simp only [SkillerInterface.ExecSkillMessage.clone_at,
    SkillerInterface.ExecSkillMessage.ctor_copy_at, Heap.malloc, Heap.store, Heap.load,
    SkillerInterface.ExecSkillMessage.skill_string_at,
    SkillerInterface.ExecSkillMessage.set_skill_string_at, Message.ctor, hm, hne, hty,
    if_true, if_false, Option.getD_some, hcopy]
  exact ⟨fun e => hne e.symm, trivial, trivial, trivial, trivial, trivial, trivial, trivial⟩

theorem clone_at_value (h : Heap) (uninit : Nat → Char) (m : MessageObj) (d : List Char)
    (hm : h.mem m.data_ptr = some d) (hsz : d.length = m.data_size)
    (halloc : m.data_ptr < h.brk) :
    (SkillerInterface.ExecSkillMessage.clone_at h uninit m).2.value
        (SkillerInterface.ExecSkillMessage.clone_at h uninit m).1 =
      SkillerInterface.ExecSkillMessage.clone (m.value h) := by
  have hne : m.data_ptr ≠ h.brk := by omega
  have hcopy : memcpy ((List.range m.data_size).map uninit) d m.data_size = d :=
    memcpy_full _ _ _ (by simp) hsz
  simp only [SkillerInterface.ExecSkillMessage.clone_at,
    SkillerInterface.ExecSkillMessage.ctor_copy_at, Heap.malloc, Heap.store, Heap.load,
    SkillerInterface.ExecSkillMessage.clone, SkillerInterface.ExecSkillMessage.ctor_copy,
    MessageObj.value, Message.ctor, hm, hne, if_true, if_false, Option.getD_some, hcopy]

end clone

/-- Witness of C11: a message holding `go` in a zeroed block of 1024 bytes at
address 1 is cloned; the clone lives at address 2 and holds `go`. -/
theorem clone_independent_witness :
    (SkillerInterface.ExecSkillMessage.clone_at
      ⟨fun a => if a = 1 then some (strncpy (memset_zero 1024) "go".toList 1024) else none, 2⟩
      (fun _ => 'x')
      ⟨SkillerInterface.ExecSkillMessage.cls, "ExecSkillMessage".toList, 1, 1024, []⟩).2.data_ptr
      ≠ 1 ∧
    c_str (SkillerInterface.ExecSkillMessage.skill_string_at
      (SkillerInterface.ExecSkillMessage.clone_at
        ⟨fun a => if a = 1 then some (strncpy (memset_zero 1024) "go".toList 1024) else none, 2⟩
        (fun _ => 'x')
        ⟨SkillerInterface.ExecSkillMessage.cls, "ExecSkillMessage".toList, 1, 1024, []⟩).1
      (SkillerInterface.ExecSkillMessage.clone_at
        ⟨fun a => if a = 1 then some (strncpy (memset_zero 1024) "go".toList 1024) else none, 2⟩
        (fun _ => 'x')
        ⟨SkillerInterface.ExecSkillMessage.cls, "ExecSkillMessage".toList, 1, 1024, []⟩).2)
      = "go".toList := by
  have h := clone_independent
    ⟨fun a => if a = 1 then some (strncpy (memset_zero 1024) "go".toList 1024) else none, 2⟩
    (fun _ => 'x')
    ⟨SkillerInterface.ExecSkillMessage.cls, "ExecSkillMessage".toList, 1, 1024, []⟩
    (strncpy (memset_zero 1024) "go".toList 1024) [] rfl rfl
    (by rw [strncpy_length _ _ _ (by rw [memset_zero_length]), memset_zero_length])
    (by decide)
  refine ⟨h.1, ?_⟩
  rw [h.2.2.2.2.1]
  exact c_str_strncpy_short _ _ _ (by decide) (by decide)

section skill_string

theorem set_skill_string_short (i : SkillerInterface) (s : List Char) (hs : NUL ∉ s)
    (hl : s.length ≤ 1023) : c_str (i.set_skill_string s).skill_string = s := by
  simp only [SkillerInterface.set_skill_string, SkillerInterface.skill_string]
  exact c_str_strncpy_short _ s 1024 hs (by omega)

theorem set_skill_string_long (i : SkillerInterface) (s : List Char) (hs : NUL ∉ s)
    (hl : 1024 ≤ s.length) (hi : i.data.skill_string.length = 1024) :
    (i.set_skill_string s).skill_string = s.take 1024 := by
  simp only [SkillerInterface.set_skill_string, SkillerInterface.skill_string]
  rw [strncpy_long _ s 1024 hs hl, List.drop_of_length_le (by omega), List.append_nil]

/-- C12 fails on the code: `set_skill_string` is `strncpy` over all 1024 bytes of
the field, so for a string of 1024 characters (here 1024 times `a`, set on a
freshly constructed interface) the field holds 1024 non-NUL bytes: no NUL lies
within the field, and the stored content is 1024 bytes long, not the first 1023
bytes of the string. -/
theorem set_skill_string_unterminated (uninit : SkillerInterface_data_t) :
    ((SkillerInterface.ctor uninit).set_skill_string (List.replicate 1024 'a')).skill_string =
      List.replicate 1024 'a' ∧
    NUL ∉ ((SkillerInterface.ctor uninit).set_skill_string
      (List.replicate 1024 'a')).skill_string ∧
    (c_str ((SkillerInterface.ctor uninit).set_skill_string
      (List.replicate 1024 'a')).skill_string).length = 1024 := by
  have hnul : NUL ∉ List.replicate 1024 'a' := by
    intro h
    have := List.eq_of_mem_replicate h
    exact absurd this (by decide)
  have hlen : (List.replicate 1024 'a').length = 1024 := List.length_replicate _ _
  have hctor : (SkillerInterface.ctor uninit).data.skill_string.length = 1024 :=
    memset_zero_length 1024
  have h := set_skill_string_long (SkillerInterface.ctor uninit) (List.replicate 1024 'a') hnul
    (by omega) hctor
  rw [List.take_of_length_le (by omega)] at h
  rw [h]
  exact ⟨rfl, hnul, by rw [c_str_of_no_nul _ hnul, hlen]⟩

end skill_string

section flags

/-- C13: the four listener flags are the single bits 2^0, 2^1, 2^2, 2^3, pairwise
disjoint, and `BBIL_FLAG_ALL` is exactly their OR; the two observer flags are the
single bits 2^0 and 2^1, disjoint, and `BBIO_FLAG_ALL` is exactly their OR; and
within each family two subsets with the same OR mask are the same subset. -/
theorem event_flags_are_masks :
    (BlackBoard.BBIL_FLAG_DATA = 2 ^ 0 ∧ BlackBoard.BBIL_FLAG_MESSAGES = 2 ^ 1 ∧
      BlackBoard.BBIL_FLAG_READER = 2 ^ 2 ∧ BlackBoard.BBIL_FLAG_WRITER = 2 ^ 3) ∧
    (∀ a ∈ BlackBoard.listener_flags, ∀ b ∈ BlackBoard.listener_flags,
      a ≠ b → a &&& b = 0) ∧
    BlackBoard.BBIL_FLAG_ALL = BlackBoard.event_mask BlackBoard.listener_flags ∧
    (BlackBoard.BBIO_FLAG_CREATED = 2 ^ 0 ∧ BlackBoard.BBIO_FLAG_DESTROYED = 2 ^ 1) ∧
    BlackBoard.BBIO_FLAG_CREATED &&& BlackBoard.BBIO_FLAG_DESTROYED = 0 ∧
    BlackBoard.BBIO_FLAG_ALL = BlackBoard.event_mask BlackBoard.observer_flags ∧
    (∀ s ∈ BlackBoard.listener_flags.sublists, ∀ t ∈ BlackBoard.listener_flags.sublists,
      BlackBoard.event_mask s = BlackBoard.event_mask t → s = t) ∧
    (∀ s ∈ BlackBoard.observer_flags.sublists, ∀ t ∈ BlackBoard.observer_flags.sublists,
      BlackBoard.event_mask s = BlackBoard.event_mask t → s = t) := by
  refine ⟨by decide, by decide, by decide, by decide, by decide, by decide, ?_, ?_⟩
  · decide
  · decide

end flags

/-- Witness of C13: the masks of DATA and WRITER are disjoint. -/
theorem event_flags_are_masks_witness :
    BlackBoard.BBIL_FLAG_DATA &&& BlackBoard.BBIL_FLAG_WRITER = 0 :=
  event_flags_are_masks.2.1 BlackBoard.BBIL_FLAG_DATA (by decide)
    BlackBoard.BBIL_FLAG_WRITER (by decide) (by decide)

section demangle

theorem digitChar_mem (d : Nat) (h : d < 10) : Nat.digitChar d ∈ "0123456789".toList := by
  interval_cases d <;> decide

theorem toDigitsCore_digits (fuel : Nat) :
    ∀ (k : Nat) (acc : List Char), (∀ c ∈ acc, c ∈ "0123456789".toList) →
      ∀ c ∈ Nat.toDigitsCore 10 fuel k acc, c ∈ "0123456789".toList := by
  induction fuel with
  | zero =>
    intro k acc hacc c hc
    simpa [Nat.toDigitsCore] using hacc c hc
  | succ f ih =>
    intro k acc hacc c hc
    have hd : Nat.digitChar (k % 10) ∈ "0123456789".toList :=
      digitChar_mem _ (Nat.mod_lt _ (by decide))
    have hacc1 : ∀ c ∈ Nat.digitChar (k % 10) :: acc, c ∈ "0123456789".toList := by
      intro c hc
      rcases List.mem_cons.mp hc with h | h
      · rw [h]; exact hd
      · exact hacc c h
    unfold Nat.toDigitsCore at hc
    by_cases hz : k / 10 = 0
    · simp only [hz, if_true] at hc
      exact hacc1 c hc
    · simp only [hz, if_false] at hc
      exact ih _ _ hacc1 c hc

theorem toDigits_digits (k : Nat) : ∀ c ∈ Nat.toDigits 10 k, c ∈ "0123456789".toList :=
  toDigitsCore_digits _ _ _ (by simp)

theorem find_first_not_of_from_append (chars ds rest : List Char) (x : Char)
    (hds : ∀ c ∈ ds, c ∈ chars) (hx : x ∉ chars) :
    ∀ i, find_first_not_of_from chars (ds ++ x :: rest) i = i + ds.length := by
  induction ds with
  | nil =>
    intro i
    simp [find_first_not_of_from, hx]
  | cons d ds ih =>
    intro i
    have hd : chars.contains d = true := by
      simpa using hds d (List.mem_cons_self _ _)
    have h1 := ih (fun c hc => hds c (List.mem_cons_of_mem _ hc)) (i + 1)
    show find_first_not_of_from chars (d :: (ds ++ x :: rest)) i = i + (d :: ds).length
    rw [find_first_not_of_from, if_pos hd, h1, List.length_cons]
    omega

/-- C14: for every non-empty class name `n` (a C string) whose first character
is not a decimal digit, `BlackBoard::demangle_fawkes_interface_name` applied to the
mangled signature `N6fawkes` ++ decimal length of `n` ++ `n` ++ `E` returns
exactly `n`. -/
theorem demangle_mangled (n : List Char) (hne : n ≠ [])
    (hfirst : ∀ c ∈ n.head?, c ∉ "0123456789".toList) (hnul : NUL ∉ n) :
    BlackBoard.demangle_fawkes_interface_name (mangled_fawkes_name n) = .ok n := by
  obtain ⟨x, xs, rfl⟩ : ∃ x xs, n = x :: xs := List.exists_cons_of_ne_nil hne
  have hx : x ∉ "0123456789".toList := hfirst x (by simp)
  have hdig := toDigits_digits (x :: xs).length
  -- the whole signature is NUL-free, so the conversion to `std::string` keeps it
  have hstr : std_string (mangled_fawkes_name (x :: xs)) = mangled_fawkes_name (x :: xs) := by
    apply c_str_of_no_nul
    simp only [mangled_fawkes_name, List.mem_append, not_or]
    refine ⟨⟨⟨by decide, ?_⟩, hnul⟩, by decide⟩
    intro h
    exact absurd (hdig _ h) (by decide)
  -- `t.substr(8)` strips `N6fawkes`
  have h8 : substr_to_end (mangled_fawkes_name (x :: xs)) 8 =
      .ok (Nat.toDigits 10 (x :: xs).length ++ x :: (xs ++ ['E'])) := by
    have hlen : ("N6fawkes".toList).length = 8 := by decide
    unfold substr_to_end mangled_fawkes_name
    rw [if_neg (by simp only [List.length_append, hlen]; omega)]
    rw [List.append_assoc, List.append_assoc, List.drop_append_of_le_length (by omega)]
    rw [← hlen, List.drop_length]
    rfl
  -- the first non-digit is the first character of `n`
  have hfind : find_first_not_of (Nat.toDigits 10 (x :: xs).length ++ x :: (xs ++ ['E']))
      "0123456789".toList = (Nat.toDigits 10 (x :: xs).length).length := by
    unfold find_first_not_of
    rw [find_first_not_of_from_append _ _ _ _ hdig hx 0]
    omega
  have hdrop : substr_to_end (Nat.toDigits 10 (x :: xs).length ++ x :: (xs ++ ['E']))
      (Nat.toDigits 10 (x :: xs).length).length = .ok (x :: (xs ++ ['E'])) := by
    unfold substr_to_end
    rw [if_neg (by simp only [List.length_append]; omega), List.drop_left]
  -- `t.substr(0, t.length() - 1)` strips the final `E`
  have hlast : substr (x :: (xs ++ ['E'])) 0 (length_minus_one (x :: (xs ++ ['E']))) =
      .ok (x :: xs) := by
    unfold substr length_minus_one
    simp
  simp only [BlackBoard.demangle_fawkes_interface_name, hstr, h8, hfind, hdrop, hlast]

end demangle

/-- Witness of C14: the signature `N6fawkes16SkillerInterfaceE` demangles to
`SkillerInterface`. -/
theorem demangle_mangled_witness :
    BlackBoard.demangle_fawkes_interface_name "N6fawkes16SkillerInterfaceE".toList =
      .ok "SkillerInterface".toList :=
  demangle_mangled "SkillerInterface".toList (by decide) (by decide) (by decide)

section netmsg

theorem bswap16_lt (x : Nat) : bswap16 x < 2 ^ 16 := by
  unfold bswap16
  omega

theorem bswap16_bswap16 (x : Nat) (hx : x < 2 ^ 16) : bswap16 (bswap16 x) = x := by
  have hy : bswap16 x = x % 256 * 256 + x / 256 % 256 := rfl
  generalize bswap16 x = y at hy
  unfold bswap16
  generalize h0 : x % 256 = b0 at hy
  generalize hq1 : x / 256 = q1 at hy
  have hq1' : q1 < 256 := by omega
  have hb0 : b0 < 256 := by omega
  have hy' : y = b0 * 256 + q1 := by omega
  have e0 : y % 256 = q1 := by omega
  have e2 : y / 256 = b0 := by omega
  have e1 : y / 256 % 256 = b0 := by rw [e2]; omega
  rw [e0, e1]
  omega

theorem bswap32_lt (x : Nat) : bswap32 x < 2 ^ 32 := by
  unfold bswap32
  omega

theorem bswap32_bswap32 (x : Nat) (hx : x < 2 ^ 32) : bswap32 (bswap32 x) = x := by
  have hy : bswap32 x = ((x % 256 * 256 + x / 256 % 256) * 256 + x / 256 / 256 % 256) * 256 +
      x / 256 / 256 / 256 % 256 := rfl
  generalize bswap32 x = y at hy
  unfold bswap32
  generalize h0 : x % 256 = b0 at hy
  generalize hq1 : x / 256 = q1 at hy
  generalize h1 : q1 % 256 = b1 at hy
  generalize hq2 : q1 / 256 = q2 at hy
  generalize h2 : q2 % 256 = b2 at hy
  generalize hq3 : q2 / 256 = q3 at hy
  generalize h3 : q3 % 256 = b3 at hy
  have hq3' : q3 < 256 := by omega
  have e0 : y % 256 = b3 := by omega
  have e1 : y / 256 % 256 = b2 := by omega
  have e2 : y / 256 / 256 % 256 = b1 := by omega
  have e3 : y / 256 / 256 / 256 % 256 = b0 := by omega
  rw [e0, e1, e2, e3]
  omega

theorem ntohs_htons (le : Bool) (x : Nat) (hx : x < 2 ^ 16) : ntohs le (htons le x) = x := by
  cases le
  · simp only [ntohs, htons, Bool.false_eq_true, if_false]
    omega
  · simp only [ntohs, htons, if_true]
    rw [Nat.mod_eq_of_lt hx, Nat.mod_eq_of_lt (bswap16_lt x), bswap16_bswap16 x hx]

theorem ntohl_htonl (le : Bool) (x : Nat) (hx : x < 2 ^ 32) : ntohl le (htonl le x) = x := by
  cases le
  · simp only [ntohl, htonl, Bool.false_eq_true, if_false]
    omega
  · simp only [ntohl, htonl, if_true]
    rw [Nat.mod_eq_of_lt hx, Nat.mod_eq_of_lt (bswap32_lt x), bswap32_bswap32 x hx]

/-- C15: on a host of either byte order, for all 16-bit `cid` and `msg_id` and
every `payload_size` up to 0xFFFFFFFF, the constructor
`FawkesNetworkMessage(cid, msg_id, payload, payload_size)` succeeds and the message
reports `cid() = cid`, `msgid() = msg_id` and `payload_size() = payload_size`;
and on every message `setComponentID(cid)`, `setMessageID(msg_id)` and
`setPayload(payload, payload_size)` make `cid()`, `msgid()` and `payload_size()`
report the value that was set. -/
theorem header_roundtrip (host_little_endian : Bool) (uninit m0 : FawkesNetworkMessage)
    (cid msg_id payload payload_size : Nat)
    (hcid : cid < 2 ^ 16) (hmsg : msg_id < 2 ^ 16) (hsize : payload_size ≤ 0xFFFFFFFF) :
    (∃ m, FawkesNetworkMessage.ctor_cid_msgid_payload host_little_endian uninit
        cid msg_id payload payload_size = .ok m ∧
      m.cid host_little_endian = cid ∧ m.msgid host_little_endian = msg_id ∧
      m.payload_size host_little_endian = payload_size) ∧
    (m0.setComponentID host_little_endian cid).cid host_little_endian = cid ∧
    (m0.setMessageID host_little_endian msg_id).msgid host_little_endian = msg_id ∧
    (m0.setPayload host_little_endian payload payload_size).2 = .ok () ∧
    (m0.setPayload host_little_endian payload payload_size).1.payload_size host_little_endian
      = payload_size := by
  have hnot : ¬ payload_size > 0xFFFFFFFF := by omega
  have h32 : payload_size < 2 ^ 32 := by omega
  refine ⟨⟨_, by simp only [FawkesNetworkMessage.ctor_cid_msgid_payload, hnot, if_false]; rfl,
    ?_, ?_, ?_⟩, ?_, ?_, ?_, ?_⟩
  · exact ntohs_htons _ _ hcid
  · exact ntohs_htons _ _ hmsg
  · exact ntohl_htonl _ _ h32
  · exact ntohs_htons _ _ hcid
  · exact ntohs_htons _ _ hmsg
  · simp only [FawkesNetworkMessage.setPayload, hnot, if_false]
  · simp only [FawkesNetworkMessage.setPayload, hnot, if_false]
    exact ntohl_htonl _ _ h32

/-- C16: `setPayload(payload, payload_size)` and the three constructors that take
a payload size throw `FawkesNetworkMessageTooBigException` if and only if
`payload_size > 0xFFFFFFFF`, and throw nothing else; when `setPayload` throws the
message (payload pointer, payload size, component ID, message ID and client ID)
is unchanged. -/
theorem too_big_iff (host_little_endian : Bool) (uninit m0 : FawkesNetworkMessage)
    (clid cid msg_id payload calloc_result payload_size : Nat) :
    ((m0.setPayload host_little_endian payload payload_size).2 =
        .error (.FawkesNetworkMessageTooBigException payload_size) ↔
      payload_size > 0xFFFFFFFF) ∧
    ((m0.setPayload host_little_endian payload payload_size).2 ≠ .ok () →
      (m0.setPayload host_little_endian payload payload_size).2 =
        .error (.FawkesNetworkMessageTooBigException payload_size) ∧
      (m0.setPayload host_little_endian payload payload_size).1 = m0) ∧
    ((FawkesNetworkMessage.ctor_cid_msgid_payload host_little_endian uninit
        cid msg_id payload payload_size =
        .error (.FawkesNetworkMessageTooBigException payload_size) ↔
      payload_size > 0xFFFFFFFF) ∧
     (payload_size ≤ 0xFFFFFFFF →
      ∃ m, FawkesNetworkMessage.ctor_cid_msgid_payload host_little_endian uninit
        cid msg_id payload payload_size = .ok m)) ∧
    ((FawkesNetworkMessage.ctor_cid_msgid_size host_little_endian uninit calloc_result
        cid msg_id payload_size =
        .error (.FawkesNetworkMessageTooBigException payload_size) ↔
      payload_size > 0xFFFFFFFF) ∧
     (payload_size ≤ 0xFFFFFFFF →
      ∃ m, FawkesNetworkMessage.ctor_cid_msgid_size host_little_endian uninit calloc_result
        cid msg_id payload_size = .ok m)) ∧
    ((FawkesNetworkMessage.ctor_clid_cid_msgid_payload host_little_endian
        clid cid msg_id payload payload_size =
        .error (.FawkesNetworkMessageTooBigException payload_size) ↔
      payload_size > 0xFFFFFFFF) ∧
     (payload_size ≤ 0xFFFFFFFF →
      ∃ m, FawkesNetworkMessage.ctor_clid_cid_msgid_payload host_little_endian
        clid cid msg_id payload payload_size = .ok m)) := by
  by_cases h : payload_size > 0xFFFFFFFF
  · have hle : ¬ payload_size ≤ 0xFFFFFFFF := by omega
    simp [FawkesNetworkMessage.setPayload, FawkesNetworkMessage.ctor_cid_msgid_payload,
      FawkesNetworkMessage.ctor_cid_msgid_size,
      FawkesNetworkMessage.ctor_clid_cid_msgid_payload, h, hle]
  · have hle : payload_size ≤ 0xFFFFFFFF := by omega
    simp [FawkesNetworkMessage.setPayload, FawkesNetworkMessage.ctor_cid_msgid_payload,
      FawkesNetworkMessage.ctor_cid_msgid_size,
      FawkesNetworkMessage.ctor_clid_cid_msgid_payload, h, hle]

/-- C17 fails on the code: none of the three constructors without a client ID,
`(cid, msg_id, payload, payload_size)`, `(cid, msg_id, payload_size)` and
`(cid, msg_id)`, assigns `_clid`, so `clid()` returns whatever the memory of the
object held before; on memory holding 0xDEADBEEF there, `clid()` of the message
built by `FawkesNetworkMessage(1, 2)` is 0xDEADBEEF, not 0. -/
theorem clid_not_set :
    (∀ (le : Bool) (uninit : FawkesNetworkMessage) (cid msg_id payload payload_size : Nat)
        (m : FawkesNetworkMessage),
      FawkesNetworkMessage.ctor_cid_msgid_payload le uninit cid msg_id payload payload_size
        = .ok m → m.clid = uninit.clid) ∧
    (∀ (le : Bool) (uninit : FawkesNetworkMessage) (p cid msg_id payload_size : Nat)
        (m : FawkesNetworkMessage),
      FawkesNetworkMessage.ctor_cid_msgid_size le uninit p cid msg_id payload_size
        = .ok m → m.clid = uninit.clid) ∧
    (∀ (le : Bool) (uninit : FawkesNetworkMessage) (cid msg_id : Nat),
      (FawkesNetworkMessage.ctor_cid_msgid le uninit cid msg_id).clid = uninit.clid) ∧
    (FawkesNetworkMessage.ctor_cid_msgid true ⟨0xDEADBEEF, ⟨⟨0, 0, 0⟩, 0⟩⟩ 1 2).clid
      = 0xDEADBEEF ∧
    (FawkesNetworkMessage.ctor_cid_msgid true ⟨0xDEADBEEF, ⟨⟨0, 0, 0⟩, 0⟩⟩ 1 2).clid ≠ 0 := by
  refine ⟨?_, ?_, fun _ _ _ _ => rfl, rfl, by decide⟩
  · intro le uninit cid msg_id payload payload_size m h
    unfold FawkesNetworkMessage.ctor_cid_msgid_payload at h
    split at h
    · cases h
    · injection h with h; subst h; rfl
  · intro le uninit p cid msg_id payload_size m h
    unfold FawkesNetworkMessage.ctor_cid_msgid_size at h
    split at h
    · cases h
    · injection h with h; subst h; rfl

end netmsg

/-- Witness of C15, on a little-endian host: component 0x0102, message 0x0304 and
a payload of 0x01020304 bytes are reported as given. -/
theorem header_roundtrip_witness :
    (∃ m, FawkesNetworkMessage.ctor_cid_msgid_payload true FawkesNetworkMessage.ctor
        0x0102 0x0304 4096 0x01020304 = .ok m ∧
      m.cid true = 0x0102 ∧ m.msgid true = 0x0304 ∧ m.payload_size true = 0x01020304) ∧
    (FawkesNetworkMessage.ctor.setComponentID true 0x0102).cid true = 0x0102 :=
  ⟨(header_roundtrip true FawkesNetworkMessage.ctor FawkesNetworkMessage.ctor
      0x0102 0x0304 4096 0x01020304 (by decide) (by decide) (by decide)).1,
   (header_roundtrip true FawkesNetworkMessage.ctor FawkesNetworkMessage.ctor
      0x0102 0x0304 4096 0x01020304 (by decide) (by decide) (by decide)).2.1⟩

/-- Witness of C16: a payload of 2^32 bytes is refused by `setPayload`, which
leaves the message as it was. -/
theorem too_big_iff_witness :
    (FawkesNetworkMessage.ctor.setPayload true 4096 (2 ^ 32)).2 =
      .error (.FawkesNetworkMessageTooBigException (2 ^ 32)) ∧
    (FawkesNetworkMessage.ctor.setPayload true 4096 (2 ^ 32)).1 = FawkesNetworkMessage.ctor :=
  (too_big_iff true FawkesNetworkMessage.ctor FawkesNetworkMessage.ctor 0 0 0 4096 0
    (2 ^ 32)).2.1 (by simp [FawkesNetworkMessage.setPayload])

section client

theorem in_sync_ctor : FawkesNetworkClient.ctor.in_sync := fun _ => rfl

theorem in_sync_register_handler (c : FawkesNetworkClient) (wc handler cid : Nat)
    (hs : c.in_sync) : (c.register_handler wc handler cid).1.in_sync := by
  unfold FawkesNetworkClient.register_handler
  split
  · exact hs
  · intro k
    by_cases hk : k = cid
    · simp [hk]
    · simpa [hk] using hs k

theorem in_sync_deregister_handler (c : FawkesNetworkClient) (cid : Nat) (hs : c.in_sync) :
    (c.deregister_handler cid).in_sync := by
  intro k
  have h1 := hs k
  have h2 := hs cid
  unfold FawkesNetworkClient.deregister_handler
  by_cases hk : k = cid
  · subst hk
    cases hh : c.handlers k <;> cases hw : c.waitconds k <;> simp_all
  · cases hh : c.handlers cid <;> cases hw : c.waitconds cid <;> simp_all

/-- C18: on a client whose two maps have the same keys (as they have after every
sequence of `register_handler` and `deregister_handler` calls),
`register_handler(handler, component_id)` throws
`HandlerAlreadyRegisteredException` if and only if a handler is already
registered for `component_id`, and throws nothing else; when it throws, the
client (both maps) is unchanged; when it succeeds, `component_id` was in
neither map before, maps to `handler` and to the new wait condition afterwards,
and every other key of both maps is as before. -/
theorem register_handler_spec (c : FawkesNetworkClient) (new_waitcond handler component_id : Nat)
    (hs : c.in_sync) :
    ((c.register_handler new_waitcond handler component_id).2 =
        .error .HandlerAlreadyRegisteredException ↔
      (c.handlers component_id).isSome = true) ∧
    ((c.register_handler new_waitcond handler component_id).2 ≠ .ok () →
      (c.register_handler new_waitcond handler component_id).2 =
        .error .HandlerAlreadyRegisteredException ∧
      (c.register_handler new_waitcond handler component_id).1 = c) ∧
    ((c.register_handler new_waitcond handler component_id).2 = .ok () →
      c.handlers component_id = none ∧ c.waitconds component_id = none ∧
      (c.register_handler new_waitcond handler component_id).1.handlers component_id
        = some handler ∧
      (c.register_handler new_waitcond handler component_id).1.waitconds component_id
        = some new_waitcond ∧
      ∀ k, k ≠ component_id →
        (c.register_handler new_waitcond handler component_id).1.handlers k = c.handlers k ∧
        (c.register_handler new_waitcond handler component_id).1.waitconds k
          = c.waitconds k) := by
  have hsync := hs component_id
  cases hh : c.handlers component_id with
  | some h0 =>
    simp [FawkesNetworkClient.register_handler, hh]
  | none =>
    rw [hh] at hsync
    have hw : c.waitconds component_id = none := by
      cases hw : c.waitconds component_id with
      | none => rfl
      | some w => rw [hw] at hsync; simp at hsync
    simp only [FawkesNetworkClient.register_handler, hh, hw, Option.isSome_none,
      Bool.false_eq_true, if_false, if_true, false_iff, not_false_eq_true, ne_eq,
      not_true_eq_false, false_implies, true_and, true_implies, reduceCtorEq]
    intro k hk
    simp [hk]

end client

/-- Witness of C18: on a new client the handler 77 is registered for component 5;
a second registration for component 5 throws and changes nothing. -/
theorem register_handler_spec_witness :
    (FawkesNetworkClient.ctor.register_handler 900 77 5).1.handlers 5 = some 77 ∧
    ((FawkesNetworkClient.ctor.register_handler 900 77 5).1.register_handler 901 78 5).2 =
      .error .HandlerAlreadyRegisteredException ∧
    ((FawkesNetworkClient.ctor.register_handler 900 77 5).1.register_handler 901 78 5).1 =
      (FawkesNetworkClient.ctor.register_handler 900 77 5).1 :=
  ⟨((register_handler_spec FawkesNetworkClient.ctor 900 77 5 in_sync_ctor).2.2 rfl).2.2.1,
   ((register_handler_spec (FawkesNetworkClient.ctor.register_handler 900 77 5).1 901 78 5
      (in_sync_register_handler _ _ _ _ in_sync_ctor)).1).2 rfl,
   rfl⟩

section tf

/-- C19 fails on the code: the constructor keeps the interface ID only in the
modes ONLY_PUBLISHER, BOTH and BOTH_DEFER_PUBLISHER, so in DEFER_PUBLISHER mode
the ID given to it is dropped, and `init_TransformAspect` then throws
`CannotInitializeThreadException` for every non-null ID, blackboard and
transformer. -/
theorem defer_publisher_init_throws :
    (∀ (uninit : TransformAspect) (id : List Char),
      (TransformAspect.ctor uninit .DEFER_PUBLISHER (some id)).tf_aspect_bb_iface_id = none) ∧
    (∀ (uninit : TransformAspect) (id : List Char) (blackboard transformer : Nat),
      ((TransformAspect.ctor uninit .DEFER_PUBLISHER (some id)).init_TransformAspect
        blackboard transformer).2 = .error .CannotInitializeThreadException) ∧
    ((TransformAspect.ctor ⟨.ONLY_LISTENER, none, none, false, none, none⟩
        .DEFER_PUBLISHER (some "Pose".toList)).init_TransformAspect 1 2).2 =
      .error .CannotInitializeThreadException :=
  ⟨fun _ _ => rfl, fun _ _ _ _ => rfl, rfl⟩

end tf

section control_thread

theorem handle_id (iface : Accessor TestInterface_data_t) (m : TestInterface.QueuedMessage) :
    (AgentControlThread.handle iface m).id = iface.id ∧
    (AgentControlThread.handle iface m).writer = iface.writer ∧
    (AgentControlThread.handle iface m).serial = iface.serial ∧
    (AgentControlThread.handle iface m).last_revision = iface.last_revision := by
  cases m <;> exact ⟨rfl, rfl, rfl, rfl⟩

theorem handle_data (iface : Accessor TestInterface_data_t)
    (m : TestInterface.QueuedMessage) :
    AgentControlThread.handle iface m =
      { iface with data := { iface.data with
          result := result_after iface.data.result m } } := by
  cases m <;> rfl

theorem expected_result_cons (r : Int) (m : TestInterface.QueuedMessage)
    (q : List TestInterface.QueuedMessage) :
    expected_result r (m :: q) = expected_result (result_after r m) q := by
  unfold expected_result last_CalculateMessage
  cases hq : q.filterMap (fun m =>
      match m with
      | .CalculateMessage s a => some (s, a)
      | .Other _ => none) with
  | nil =>
    cases m with
    | CalculateMessage s a => simp [hq, result_after]
    | Other c => simp [hq, result_after]
  | cons x xs =>
    cases hl : (x :: xs).getLast? with
    | none => simp at hl
    | some y =>
      cases m with
      | CalculateMessage s a => simp [hq, List.getLast?_cons_cons, hl]
      | Other c => simp [hq, hl]

theorem foldl_handle (q : List TestInterface.QueuedMessage) :
    ∀ iface : Accessor TestInterface_data_t,
      q.foldl AgentControlThread.handle iface =
        { iface with data := { iface.data with
            result := expected_result iface.data.result q } } := by
  induction q with
  | nil => intro iface; rfl
  | cons m q ih =>
    intro iface
    rw [List.foldl_cons, ih, expected_result_cons, handle_data]

theorem drain_loop_all (q : List TestInterface.QueuedMessage) :
    ∀ (fuel : Nat) (reg : Registry TestInterface_data_t TestInterface.QueuedMessage)
      (iface : Accessor TestInterface_data_t)
      (b : InterfaceBlock TestInterface_data_t TestInterface.QueuedMessage)
      (popped : List TestInterface.QueuedMessage),
      reg.blocks iface.id = some b → b.msgq = q → iface.writer = true → q.length < fuel →
      ∃ reg1, AgentControlThread.drain_loop fuel reg iface popped =
          some (reg1, q.foldl AgentControlThread.handle iface, popped ++ q) ∧
        reg1.blocks iface.id = some { b with msgq := [] } := by
  induction q with
  | nil =>
    intro fuel reg iface b popped hb hq hw hf
    obtain ⟨f, rfl⟩ : ∃ f, fuel = f + 1 := ⟨fuel - 1, by omega⟩
    refine ⟨reg, ?_, ?_⟩
    · simp [AgentControlThread.drain_loop, msgq_empty, hw, hb, hq]
    · rw [hb, ← hq]
  | cons m q ih =>
    intro fuel reg iface b popped hb hq hw hf
    obtain ⟨f, rfl⟩ : ∃ f, fuel = f + 1 := ⟨fuel - 1, by omega⟩
    simp only [List.length_cons] at hf
    obtain ⟨h1, h2, _, _⟩ := handle_id iface m
    obtain ⟨reg1, e1, e2⟩ := ih f
      (reg.set_block iface.id (some { b with msgq := q }))
      (AgentControlThread.handle iface m)
      { b with msgq := q } (popped ++ [m])
      (by rw [h1]; simp [Registry.set_block]) rfl (by rw [h2]; exact hw) (by omega)
    have hpop : msgq_pop reg (AgentControlThread.handle iface m) =
        (reg.set_block iface.id (some { b with msgq := q }), .ok ()) := by
      unfold msgq_pop
      rw [h1, h2, hw, hb]
      simp [hq]
    refine ⟨reg1, ?_, ?_⟩
    · unfold AgentControlThread.drain_loop
      simp only [msgq_empty, msgq_first, hw, hb, hq, Bool.true_eq_false, if_false,
        List.isEmpty_cons, List.head?_cons, hpop, List.foldl_cons]
      simpa using e1
    · rw [h1] at e2
      simpa using e2

theorem int_add_exact (a b : Int) (hlo : -2 ^ 31 ≤ a + b) (hhi : a + b < 2 ^ 31) :
    int_add a b = a + b := by
  unfold int_add wrap_int32
  omega

theorem expected_result_skip_other (r : Int) (q1 q2 : List TestInterface.QueuedMessage)
    (c : CppClass) :
    expected_result r (q1 ++ .Other c :: q2) = expected_result r (q1 ++ q2) := by
  unfold expected_result last_CalculateMessage
  simp [List.filterMap_append]

/-- C20: let the block of the `TestInterface` hold the queue `q` at entry of
`AgentControlThread::loop`, run by the writer.  For every fuel above the length
of `q` the loop returns, having popped exactly the messages of `q`, each once,
in queue order, and the queue is empty afterwards.  The result written to the
block (and held by the accessor) is `summand + addend`, in `int` arithmetic, of
the last `CalculateMessage` of `q`, or the result read at the start if `q` holds
no `CalculateMessage`; all other fields are written back as read; and a message
of another class anywhere in the queue has no effect on the result. -/
theorem loop_spec (reg : Registry TestInterface_data_t TestInterface.QueuedMessage)
    (m_test_iface : Accessor TestInterface_data_t)
    (b : InterfaceBlock TestInterface_data_t TestInterface.QueuedMessage)
    (hb : reg.blocks m_test_iface.id = some b) (hw : m_test_iface.writer = true) :
    (∀ fuel, b.msgq.length < fuel →
      ∃ reg1 iface1,
        AgentControlThread.loop fuel reg m_test_iface = some (reg1, iface1, b.msgq) ∧
        msgq_empty reg1 iface1 = .ok true ∧
        reg1.blocks m_test_iface.id =
          some { b with
            payload := { b.payload with
              result := expected_result b.payload.result b.msgq },
            revision := b.revision + 1,
            msgq := [] } ∧
        iface1.data.result = expected_result b.payload.result b.msgq) ∧
    (∀ q1 c q2, b.msgq = q1 ++ .Other c :: q2 →
      expected_result b.payload.result b.msgq =
        expected_result b.payload.result (q1 ++ q2)) := by
  refine ⟨fun fuel hf => ?_, fun q1 c q2 hq => by rw [hq, expected_result_skip_other]⟩
  obtain ⟨reg1, e1, e2⟩ := drain_loop_all b.msgq fuel reg
    { m_test_iface with data := b.payload, last_revision := b.revision } b [] hb rfl hw hf
  rw [foldl_handle] at e1
  have e2a : reg1.blocks m_test_iface.id = some { b with msgq := [] } := e2
  refine ⟨reg1.set_block m_test_iface.id
      (some ⟨⟨expected_result b.payload.result b.msgq, b.payload.other_fields⟩,
        b.revision + 1, b.writer_present, b.reader_count, []⟩),
    ⟨m_test_iface.serial, m_test_iface.id, m_test_iface.writer,
      ⟨expected_result b.payload.result b.msgq, b.payload.other_fields⟩, b.revision + 1⟩,
    ?_, ?_, ?_, ?_⟩
  · simp only [AgentControlThread.loop, read, hb]
    rw [e1]
    simp only [write, hw, e2a, List.nil_append]
    rfl
  · simp [msgq_empty, hw, Registry.set_block]
  · simp [Registry.set_block]
  · rfl

end control_thread

/-- Witness of C20: with the queue CalculateMessage(1, 2), another message,
CalculateMessage(20, 22), the loop pops the three messages in order and leaves
42 as result. -/
theorem loop_spec_witness :
    ∃ reg1 iface1,
      AgentControlThread.loop 4
        ⟨0, fun k => if k = ⟨"TestInterface", "readylog_test"⟩ then
          some ⟨⟨7, []⟩, 0, true, 0,
            [.CalculateMessage 1 2, .Other ⟨"TestInterface", "SetTestIntMessage"⟩,
             .CalculateMessage 20 22]⟩ else none,
          [⟨1, ⟨"TestInterface", "readylog_test"⟩, true⟩], 2⟩
        ⟨1, ⟨"TestInterface", "readylog_test"⟩, true, ⟨0, []⟩, 0⟩ =
        some (reg1, iface1,
          [.CalculateMessage 1 2, .Other ⟨"TestInterface", "SetTestIntMessage"⟩,
           .CalculateMessage 20 22]) ∧
      iface1.data.result = 42 := by
  obtain ⟨reg1, iface1, h1, _, _, h4⟩ := (loop_spec
    ⟨0, fun k => if k = ⟨"TestInterface", "readylog_test"⟩ then
      some ⟨⟨7, []⟩, 0, true, 0,
        [.CalculateMessage 1 2, .Other ⟨"TestInterface", "SetTestIntMessage"⟩,
         .CalculateMessage 20 22]⟩ else none,
      [⟨1, ⟨"TestInterface", "readylog_test"⟩, true⟩], 2⟩
    ⟨1, ⟨"TestInterface", "readylog_test"⟩, true, ⟨0, []⟩, 0⟩
    ⟨⟨7, []⟩, 0, true, 0,
      [.CalculateMessage 1 2, .Other ⟨"TestInterface", "SetTestIntMessage"⟩,
       .CalculateMessage 20 22]⟩ rfl rfl).1 4 (by decide)
  exact ⟨reg1, iface1, h1, by rw [h4]; decide⟩

end fawkes
